import Mathlib

/-!
# Verification of the `CallbackSaver` checkpoint adapter

A shallow embedding of the `CallbackSaver` class (file `saver.ts`) of the
`langgraph-callback-checkpointer` repository, together with the supporting
types of `types.ts`.  Backend callbacks are modelled as pure functions
returning `Except JsError α`; each saver operation additionally returns the
list of backend calls it performed, so that claims about the number and the
arguments of backend invocations can be stated.

JavaScript runtime values (the `any`-typed payloads flowing through the
codec) are modelled by the mutual inductive `Value`/`VList`/`VFields`;
`JSON.stringify` and `JSON.parse` are modelled by an executable printer and
a fuel-based recursive-descent parser over `List Char`.
-/

set_option maxHeartbeats 1000000

namespace CallbackCheckpointer

/-! ## JavaScript values -/

-- A JavaScript runtime value, as far as the codec can observe it:
-- `undef`, `func` and `sym` are the values on which `JSON.stringify`
-- returns `undefined` rather than a string, and `cyclic` is an opaque
-- token standing for an object graph with a cycle, on which
-- `JSON.stringify` throws a TypeError.
mutual
/-- A JavaScript runtime value flowing through the codec. -/
inductive Value where
  | str (s : String)
  | num (n : Int)
  | bool (b : Bool)
  | null
  | undef
  | func (name : String)
  | sym (descr : String)
  | arr (xs : VList)
  | obj (fs : VFields)
  | cyclic
deriving DecidableEq
inductive VList where
  | nil
  | cons (hd : Value) (tl : VList)
deriving DecidableEq
-- Key/value fields of a JavaScript object, in insertion order.
inductive VFields where
  | nil
  | cons (key : String) (val : Value) (tl : VFields)
deriving DecidableEq
end

/-! ## Decimal digits -/

/-- The decimal digit character for `d < 10`. -/
def digitChar (d : Nat) : Char := Char.ofNat (48 + d)

/-- Fuel-driven digit expansion; `fuel ≥ n` always suffices. -/
def natDigitsGo : Nat → Nat → List Char
  | 0, n => [digitChar n]
  | fuel + 1, n =>
    if n < 10 then [digitChar n]
    else natDigitsGo fuel (n / 10) ++ [digitChar (n % 10)]

/-- Decimal digits of `n`, most significant first (model of JS number
printing for integers). -/
def natDigits (n : Nat) : List Char := natDigitsGo n n

theorem natDigitsGo_congr (n : Nat) : ∀ fuel1 fuel2 : Nat, n ≤ fuel1 → n ≤ fuel2 →
    natDigitsGo fuel1 n = natDigitsGo fuel2 n := by
  induction n using Nat.strong_induction_on with
  | _ n ih =>
    intro fuel1 fuel2 h1 h2
    match fuel1, fuel2 with
    | 0, 0 => rfl
    | 0, f2 + 1 =>
      have hn : n = 0 := by omega
      subst hn
      simp [natDigitsGo]
    | f1 + 1, 0 =>
      have hn : n = 0 := by omega
      subst hn
      simp [natDigitsGo]
    | f1 + 1, f2 + 1 =>
      by_cases hlt : n < 10
      · simp [natDigitsGo, hlt]
      · have hdiv : n / 10 < n := Nat.div_lt_self (by omega) (by norm_num)
        simp only [natDigitsGo, if_neg hlt]
        rw [ih (n / 10) hdiv f1 f2 (by omega) (by omega)]

theorem natDigits_eq (n : Nat) :
    natDigits n = if n < 10 then [digitChar n]
      else natDigits (n / 10) ++ [digitChar (n % 10)] := by
  by_cases hlt : n < 10
  · rw [if_pos hlt]
    match n, hlt with
    | 0, _ => rfl
    | m + 1, hlt => simp [natDigits, natDigitsGo, hlt]
  · rw [if_neg hlt]
    have hn : ∃ m, n = m + 1 := ⟨n - 1, by omega⟩
    obtain ⟨m, hm⟩ := hn
    subst hm
    show natDigitsGo (m + 1) (m + 1) = _
    rw [show natDigitsGo (m + 1) (m + 1)
      = natDigitsGo m ((m + 1) / 10) ++ [digitChar ((m + 1) % 10)] by
        simp [natDigitsGo, hlt]]
    have : natDigitsGo m ((m + 1) / 10) = natDigits ((m + 1) / 10) := by
      apply natDigitsGo_congr <;> omega
    rw [this]

/-- Numeric value of a digit character. -/
def charVal (c : Char) : Nat := c.toNat - 48

/-- Fold a digit list (most significant first) back to a number. -/
def digitsToNat (acc : Nat) : List Char → Nat
  | [] => acc
  | c :: tl => digitsToNat (acc * 10 + charVal c) tl

/-- Split a maximal run of leading decimal digits off a character list. -/
def takeDigits : List Char → List Char × List Char
  | [] => ([], [])
  | c :: tl =>
    if c.isDigit then
      let (ds, rest) := takeDigits tl
      (c :: ds, rest)
    else ([], c :: tl)

theorem digitChar_isDigit {d : Nat} (h : d < 10) : (digitChar d).isDigit = true := by
  interval_cases d <;> decide

theorem charVal_digitChar {d : Nat} (h : d < 10) : charVal (digitChar d) = d := by
  interval_cases d <;> decide

theorem natDigits_all_digits (n : Nat) : ∀ c ∈ natDigits n, c.isDigit = true := by
  induction n using Nat.strong_induction_on with
  | _ n ih =>
    rw [natDigits_eq]
    split
    · intro c hc
      simp only [List.mem_singleton] at hc
      subst hc
      exact digitChar_isDigit (by omega)
    · intro c hc
      rw [List.mem_append] at hc
      rcases hc with hc | hc
      · exact ih (n / 10) (Nat.div_lt_self (by omega) (by norm_num)) c hc
      · simp only [List.mem_singleton] at hc
        subst hc
        exact digitChar_isDigit (Nat.mod_lt _ (by norm_num))

theorem natDigits_ne_nil (n : Nat) : natDigits n ≠ [] := by
  rw [natDigits_eq]
  split
  · simp
  · simp

theorem digitsToNat_nil (acc : Nat) : digitsToNat acc [] = acc := rfl

theorem digitsToNat_cons (acc : Nat) (c : Char) (tl : List Char) :
    digitsToNat acc (c :: tl) = digitsToNat (acc * 10 + charVal c) tl := rfl

theorem digitsToNat_append (acc : Nat) (l₁ l₂ : List Char) :
    digitsToNat acc (l₁ ++ l₂) = digitsToNat (digitsToNat acc l₁) l₂ := by
  induction l₁ generalizing acc with
  | nil => rfl
  | cons c tl ih => rw [List.cons_append, digitsToNat_cons, digitsToNat_cons, ih]

theorem digitsToNat_natDigits (n : Nat) (acc : Nat) :
    digitsToNat acc (natDigits n) = acc * 10 ^ (natDigits n).length + n := by
  induction n using Nat.strong_induction_on generalizing acc with
  | _ n ih =>
    rw [natDigits_eq]
    split
    · next h =>
      rw [digitsToNat_cons, digitsToNat_nil, charVal_digitChar h,
        List.length_singleton, pow_one]
    · next h =>
      rw [digitsToNat_append]
      have hlt : n / 10 < n := Nat.div_lt_self (by omega) (by norm_num)
      rw [ih (n / 10) hlt acc]
      rw [digitsToNat_cons, digitsToNat_nil,
        charVal_digitChar (Nat.mod_lt n (by norm_num : (0:Nat) < 10)),
        List.length_append, List.length_singleton, pow_succ]
      have hdm : n / 10 * 10 + n % 10 = n := by omega
      have expand : ∀ M : Nat, (acc * M + n / 10) * 10 + n % 10
          = acc * (M * 10) + (n / 10 * 10 + n % 10) := fun M => by ring
      rw [expand, hdm]

theorem takeDigits_append (ds rest : List Char)
    (hds : ∀ c ∈ ds, c.isDigit = true)
    (hrest : ∀ c, rest.head? = some c → c.isDigit = false) :
    takeDigits (ds ++ rest) = (ds, rest) := by
  induction ds with
  | nil =>
    simp only [List.nil_append]
    cases rest with
    | nil => rfl
    | cons c tl =>
      rw [takeDigits]
      rw [hrest c rfl]
      simp
  | cons c tl ih =>
    have hc : c.isDigit = true := hds c (by simp)
    rw [List.cons_append, takeDigits, hc]
    simp only [if_true]
    rw [ih (fun x hx => hds x (by simp [hx]))]

/-! ## JSON string escaping -/

/-- Escape one character for a JSON string literal. -/
def escapeChar (c : Char) : List Char :=
  if c = '"' then ['\\', '"']
  else if c = '\\' then ['\\', '\\']
  else if c = '\n' then ['\\', 'n']
  else if c = '\t' then ['\\', 't']
  else if c = '\r' then ['\\', 'r']
  else [c]

/-- Escape every character of a JSON string body. -/
def escapeChars : List Char → List Char
  | [] => []
  | c :: tl => escapeChar c ++ escapeChars tl

/-- Printed form of a JSON string literal (model of `JSON.stringify` on a
string): a quoted, escaped rendering. -/
def jstrChars (s : String) : List Char := '"' :: (escapeChars s.data ++ ['"'])

/-- Decode one escape character of a JSON string literal. -/
def unescapeChar (e : Char) : Option Char :=
  if e = '"' then some '"'
  else if e = '\\' then some '\\'
  else if e = '/' then some '/'
  else if e = 'n' then some '\n'
  else if e = 't' then some '\t'
  else if e = 'r' then some '\r'
  else if e = 'b' then some (Char.ofNat 8)
  else if e = 'f' then some (Char.ofNat 12)
  else none

/-- Parse the remainder of a JSON string literal (after the opening quote):
returns the decoded characters and the input after the closing quote. -/
def parseStrChars : List Char → Option (List Char × List Char)
  | [] => none
  | '"' :: rest => some ([], rest)
  | '\\' :: [] => none
  | '\\' :: e :: rest2 =>
    match unescapeChar e with
    | none => none
    | some c2 => (parseStrChars rest2).map (fun p => (c2 :: p.1, p.2))
  | c :: rest => (parseStrChars rest).map (fun p => (c :: p.1, p.2))

theorem parseStrChars_quote (rest : List Char) :
    parseStrChars ('"' :: rest) = some ([], rest) := by
  simp [parseStrChars]

theorem parseStrChars_escaped (e c2 : Char) (rest : List Char)
    (he : unescapeChar e = some c2) :
    parseStrChars ('\\' :: e :: rest)
      = (parseStrChars rest).map (fun p => (c2 :: p.1, p.2)) := by
  simp [parseStrChars, he]

theorem parseStrChars_plain (c : Char) (rest : List Char)
    (h1 : c ≠ '"') (h2 : c ≠ '\\') :
    parseStrChars (c :: rest)
      = (parseStrChars rest).map (fun p => (c :: p.1, p.2)) := by
  simp [parseStrChars, h1, h2]

theorem parseStrChars_escape (l rest : List Char) :
    parseStrChars (escapeChars l ++ '"' :: rest) = some (l, rest) := by
  induction l with
  | nil =>
    rw [escapeChars, List.nil_append, parseStrChars_quote]
  | cons c tl ih =>
    rw [escapeChars, List.append_assoc]
    by_cases h1 : c = '"'
    · subst h1
      rw [show escapeChar '"' = ['\\', '"'] from rfl]
      rw [show (['\\', '"'] : List Char) ++ (escapeChars tl ++ '"' :: rest)
          = '\\' :: '"' :: (escapeChars tl ++ '"' :: rest) from rfl]
      rw [parseStrChars_escaped '"' '"' _ (by decide), ih]
      rfl
    · by_cases h2 : c = '\\'
      · subst h2
        rw [show escapeChar '\\' = ['\\', '\\'] from rfl]
        rw [show (['\\', '\\'] : List Char) ++ (escapeChars tl ++ '"' :: rest)
            = '\\' :: '\\' :: (escapeChars tl ++ '"' :: rest) from rfl]
        rw [parseStrChars_escaped '\\' '\\' _ (by decide), ih]
        rfl
      · by_cases h3 : c = '\n'
        · subst h3
          rw [show escapeChar '\n' = ['\\', 'n'] from rfl]
          rw [show (['\\', 'n'] : List Char) ++ (escapeChars tl ++ '"' :: rest)
              = '\\' :: 'n' :: (escapeChars tl ++ '"' :: rest) from rfl]
          rw [parseStrChars_escaped 'n' '\n' _ (by decide), ih]
          rfl
        · by_cases h4 : c = '\t'
          · subst h4
            rw [show escapeChar '\t' = ['\\', 't'] from rfl]
            rw [show (['\\', 't'] : List Char) ++ (escapeChars tl ++ '"' :: rest)
                = '\\' :: 't' :: (escapeChars tl ++ '"' :: rest) from rfl]
            rw [parseStrChars_escaped 't' '\t' _ (by decide), ih]
            rfl
          · by_cases h5 : c = '\r'
            · subst h5
              rw [show escapeChar '\r' = ['\\', 'r'] from rfl]
              rw [show (['\\', 'r'] : List Char) ++ (escapeChars tl ++ '"' :: rest)
                  = '\\' :: 'r' :: (escapeChars tl ++ '"' :: rest) from rfl]
              rw [parseStrChars_escaped 'r' '\r' _ (by decide), ih]
              rfl
            · rw [show escapeChar c = [c] by
                simp [escapeChar, h1, h2, h3, h4, h5]]
              rw [List.singleton_append, parseStrChars_plain c _ h1 h2, ih]
              rfl

/-! ## Integer printing (model of JS number rendering for integers) -/

/-- Decimal rendering of an integer, as `JSON.stringify` prints it. -/
def intChars (n : Int) : List Char :=
  if n < 0 then '-' :: natDigits n.natAbs else natDigits n.toNat

/-- The head of a printed natural number is a decimal digit. -/
theorem natDigits_head (n : Nat) :
    ∃ c tl, natDigits n = c :: tl ∧ c.isDigit = true := by
  cases h : natDigits n with
  | nil => exact absurd h (natDigits_ne_nil n)
  | cons c tl =>
    refine ⟨c, tl, rfl, ?_⟩
    exact natDigits_all_digits n c (h ▸ List.mem_cons_self c tl)

/-- A decimal digit is none of the characters that start another JSON
token. -/
theorem isDigit_not_special {c : Char} (h : c.isDigit = true) :
    c ≠ '"' ∧ c ≠ '\\' ∧ c ≠ '[' ∧ c ≠ ']' ∧ c ≠ '{' ∧ c ≠ '}' ∧
    c ≠ 'n' ∧ c ≠ 't' ∧ c ≠ 'f' ∧ c ≠ '-' ∧ c ≠ ',' ∧ c ≠ ':' := by
  refine ⟨?_, ?_, ?_, ?_, ?_, ?_, ?_, ?_, ?_, ?_, ?_, ?_⟩ <;>
    (rintro rfl; exact absurd h (by decide))

/-- `head?`-based statement that a character list does not begin with a
decimal digit (so a maximal digit run just before it is not extended). -/
def noDigitHead (l : List Char) : Prop :=
  ∀ c, l.head? = some c → c.isDigit = false

theorem noDigitHead_nil : noDigitHead [] := by
  intro c hc
  simp at hc

theorem noDigitHead_cons {c : Char} (h : c.isDigit = false) (l : List Char) :
    noDigitHead (c :: l) := by
  intro c' hc'
  simp only [List.head?_cons, Option.some.injEq] at hc'
  exact hc' ▸ h

theorem takeDigits_natDigits (n : Nat) (rest : List Char)
    (hrest : noDigitHead rest) :
    takeDigits (natDigits n ++ rest) = (natDigits n, rest) :=
  takeDigits_append _ _ (natDigits_all_digits n) hrest

theorem digitsToNat_natDigits_zero (n : Nat) :
    digitsToNat 0 (natDigits n) = n := by
  rw [digitsToNat_natDigits]
  simp

/-! ## The JSON printer (model of `JSON.stringify`) -/

/-- Outcome of `JSON.stringify`: a rendered string, the JS value
`undefined` (for `undefined`, functions and symbols at top level), or a
thrown `TypeError` (for cyclic structures). -/
inductive SRes where
  | ok (cs : List Char)
  | undef
  | thrown
deriving DecidableEq

/-- Comma-join a list of rendered fragments. -/
def joinComma : List (List Char) → List Char
  | [] => []
  | [p] => p
  | p :: ps => p ++ ',' :: joinComma ps

mutual
/-- Model of `JSON.stringify` on a JavaScript value. -/
def stringifyV : Value → SRes
  | .str s => .ok (jstrChars s)
  | .num n => .ok (intChars n)
  | .bool true => .ok "true".data
  | .bool false => .ok "false".data
  | .null => .ok "null".data
  | .undef => .undef
  | .func _ => .undef
  | .sym _ => .undef
  | .cyclic => .thrown
  | .arr xs =>
    match stringifyElems xs with
    | none => .thrown
    | some parts => .ok ('[' :: (joinComma parts ++ [']']))
  | .obj fs =>
    match stringifyFields fs with
    | none => .thrown
    | some parts => .ok ('{' :: (joinComma parts ++ ['}']))
/-- Rendered array elements: `undefined`-like elements become `null`,
a throwing element propagates the throw (`none`). -/
def stringifyElems : VList → Option (List (List Char))
  | .nil => some []
  | .cons v tl =>
    match stringifyV v, stringifyElems tl with
    | .ok cs, some t => some (cs :: t)
    | .undef, some t => some ("null".data :: t)
    | _, _ => none
/-- Rendered object members: fields with `undefined`-like values are
skipped, a throwing value propagates the throw (`none`). -/
def stringifyFields : VFields → Option (List (List Char))
  | .nil => some []
  | .cons k v tl =>
    match stringifyV v, stringifyFields tl with
    | .ok cs, some t => some ((jstrChars k ++ ':' :: cs) :: t)
    | .undef, some t => some t
    | _, _ => none
end

mutual
/-- The value is built purely from JSON-serializable structure
(strings, numbers, booleans, null, arrays, objects). -/
def jsonCleanV : Value → Bool
  | .str _ => true
  | .num _ => true
  | .bool _ => true
  | .null => true
  | .undef => false
  | .func _ => false
  | .sym _ => false
  | .cyclic => false
  | .arr xs => jsonCleanL xs
  | .obj fs => jsonCleanF fs
def jsonCleanL : VList → Bool
  | .nil => true
  | .cons v tl => jsonCleanV v && jsonCleanL tl
def jsonCleanF : VFields → Bool
  | .nil => true
  | .cons _ v tl => jsonCleanV v && jsonCleanF tl
end

/-! ## The JSON parser (model of `JSON.parse`) -/

mutual
/-- Fuel-based recursive-descent JSON value parser. -/
def parseVal : Nat → List Char → Option (Value × List Char)
  | 0, _ => none
  | _ + 1, [] => none
  | f + 1, c :: rest =>
    if c = '"' then
      (parseStrChars rest).map (fun p => (Value.str (String.mk p.1), p.2))
    else if c = '[' then
      match rest with
      | [] => none
      | r1 :: r2 =>
        if r1 = ']' then some (.arr .nil, r2)
        else (parseElems f (r1 :: r2)).map (fun p => (Value.arr p.1, p.2))
    else if c = '{' then
      match rest with
      | [] => none
      | r1 :: r2 =>
        if r1 = '}' then some (.obj .nil, r2)
        else (parseFieldList f (r1 :: r2)).map (fun p => (Value.obj p.1, p.2))
    else if c = 'n' then
      match rest with
      | 'u' :: 'l' :: 'l' :: r => some (.null, r)
      | _ => none
    else if c = 't' then
      match rest with
      | 'r' :: 'u' :: 'e' :: r => some (.bool true, r)
      | _ => none
    else if c = 'f' then
      match rest with
      | 'a' :: 'l' :: 's' :: 'e' :: r => some (.bool false, r)
      | _ => none
    else if c = '-' then
      match takeDigits rest with
      | ([], _) => none
      | (ds, r) => some (.num (-(Int.ofNat (digitsToNat 0 ds))), r)
    else if c.isDigit then
      match takeDigits (c :: rest) with
      | ([], _) => none
      | (ds, r) => some (.num (Int.ofNat (digitsToNat 0 ds)), r)
    else none
/-- Parse one or more comma-separated array elements up to `]`. -/
def parseElems : Nat → List Char → Option (VList × List Char)
  | 0, _ => none
  | f + 1, cs =>
    match parseVal f cs with
    | none => none
    | some (v, r) =>
      match r with
      | ',' :: r2 => (parseElems f r2).map (fun p => (VList.cons v p.1, p.2))
      | ']' :: r2 => some (.cons v .nil, r2)
      | _ => none
/-- Parse one or more comma-separated object members up to `}`. -/
def parseFieldList : Nat → List Char → Option (VFields × List Char)
  | 0, _ => none
  | f + 1, cs =>
    match cs with
    | '"' :: rest =>
      match parseStrChars rest with
      | none => none
      | some (kl, r1) =>
        match r1 with
        | ':' :: r2 =>
          match parseVal f r2 with
          | none => none
          | some (v, r3) =>
            match r3 with
            | ',' :: r4 =>
              (parseFieldList f r4).map
                (fun p => (VFields.cons (String.mk kl) v p.1, p.2))
            | '}' :: r4 => some (.cons (String.mk kl) v .nil, r4)
            | _ => none
        | _ => none
    | _ => none
end

/-- Model of `JSON.parse`: parse the whole string as one JSON value,
failing (as a caught `SyntaxError`) on anything else. -/
def jsonParse (s : String) : Option Value :=
  match parseVal (s.length + 1) s.data with
  | some (v, []) => some v
  | _ => none

/-! ## Fuel bounds for the parser -/

mutual
/-- Fuel needed by `parseVal` on the printed form of a value. -/
def needV : Value → Nat
  | .arr xs => 1 + needL xs
  | .obj fs => 1 + needF fs
  | _ => 1
def needL : VList → Nat
  | .nil => 0
  | .cons v tl => 1 + needV v + needL tl
def needF : VFields → Nat
  | .nil => 0
  | .cons _ v tl => 1 + needV v + needF tl
end

theorem parseVal_quote (f : Nat) (rest : List Char) :
    parseVal (f + 1) ('"' :: rest)
      = (parseStrChars rest).map (fun p => (Value.str (String.mk p.1), p.2)) := by
  simp [parseVal]

theorem parseVal_null (f : Nat) (r : List Char) :
    parseVal (f + 1) ('n' :: 'u' :: 'l' :: 'l' :: r) = some (.null, r) := by
  simp [parseVal]

theorem parseVal_true (f : Nat) (r : List Char) :
    parseVal (f + 1) ('t' :: 'r' :: 'u' :: 'e' :: r) = some (.bool true, r) := by
  simp [parseVal]

theorem parseVal_false (f : Nat) (r : List Char) :
    parseVal (f + 1) ('f' :: 'a' :: 'l' :: 's' :: 'e' :: r)
      = some (.bool false, r) := by
  simp [parseVal]

theorem parseVal_arrNil (f : Nat) (r : List Char) :
    parseVal (f + 1) ('[' :: ']' :: r) = some (.arr .nil, r) := by
  simp [parseVal]

theorem parseVal_arrCons (f : Nat) (r1 : Char) (r2 : List Char)
    (h1 : r1 ≠ ']') :
    parseVal (f + 1) ('[' :: r1 :: r2)
      = (parseElems f (r1 :: r2)).map (fun p => (Value.arr p.1, p.2)) := by
  simp [parseVal, h1]

theorem parseVal_objNil (f : Nat) (r : List Char) :
    parseVal (f + 1) ('{' :: '}' :: r) = some (.obj .nil, r) := by
  simp [parseVal]

theorem parseVal_objCons (f : Nat) (r1 : Char) (r2 : List Char)
    (h1 : r1 ≠ '}') :
    parseVal (f + 1) ('{' :: r1 :: r2)
      = (parseFieldList f (r1 :: r2)).map (fun p => (Value.obj p.1, p.2)) := by
  simp [parseVal, h1]

theorem parseVal_neg (f : Nat) (rest r : List Char) (d : Char) (ds : List Char)
    (h : takeDigits rest = (d :: ds, r)) :
    parseVal (f + 1) ('-' :: rest)
      = some (.num (-(Int.ofNat (digitsToNat 0 (d :: ds)))), r) := by
  simp [parseVal, h]

theorem parseVal_digit (f : Nat) (c : Char) (rest r : List Char)
    (d : Char) (ds : List Char) (hc : c.isDigit = true)
    (h : takeDigits (c :: rest) = (d :: ds, r)) :
    parseVal (f + 1) (c :: rest)
      = some (.num (Int.ofNat (digitsToNat 0 (d :: ds))), r) := by
  obtain ⟨h1, _, h3, _, h5, _, h7, h8, h9, h10, _, _⟩ := isDigit_not_special hc
  simp [parseVal, h, hc, h1, h3, h5, h7, h8, h9, h10]

theorem parseElems_done (f : Nat) (cs : List Char) (v : Value) (r2 : List Char)
    (h : parseVal f cs = some (v, ']' :: r2)) :
    parseElems (f + 1) cs = some (.cons v .nil, r2) := by
  simp [parseElems, h]

theorem parseElems_more (f : Nat) (cs : List Char) (v : Value) (r2 : List Char)
    (h : parseVal f cs = some (v, ',' :: r2)) :
    parseElems (f + 1) cs
      = (parseElems f r2).map (fun p => (VList.cons v p.1, p.2)) := by
  simp [parseElems, h]

theorem parseFieldList_done (f : Nat) (kl r2 : List Char) (v : Value)
    (r4 : List Char) (h : parseVal f r2 = some (v, '}' :: r4)) :
    parseFieldList (f + 1) ('"' :: (escapeChars kl ++ '"' :: ':' :: r2))
      = some (.cons (String.mk kl) v .nil, r4) := by
  simp [parseFieldList, parseStrChars_escape, h]

theorem parseFieldList_more (f : Nat) (kl r2 : List Char) (v : Value)
    (r4 : List Char) (h : parseVal f r2 = some (v, ',' :: r4)) :
    parseFieldList (f + 1) ('"' :: (escapeChars kl ++ '"' :: ':' :: r2))
      = (parseFieldList f r4).map
          (fun p => (VFields.cons (String.mk kl) v p.1, p.2)) := by
  simp [parseFieldList, parseStrChars_escape, h]

/-! ## Round trip: parsing a printed value -/

theorem needV_pos (v : Value) : 1 ≤ needV v := by
  cases v <;> simp [needV]

theorem joinComma_head (c : Char) (ctl : List Char) (t : List (List Char)) :
    ∃ jtl, joinComma ((c :: ctl) :: t) = c :: jtl := by
  cases t with
  | nil => exact ⟨ctl, rfl⟩
  | cons p ps => exact ⟨ctl ++ ',' :: joinComma (p :: ps), rfl⟩

theorem stringify_head (v : Value) (cs : List Char)
    (h : stringifyV v = SRes.ok cs) :
    ∃ c tl, cs = c :: tl ∧ c ≠ ']' ∧ c ≠ '}' := by
  cases v with
  | str s =>
    simp only [stringifyV, SRes.ok.injEq] at h
    subst h
    exact ⟨'"', _, rfl, by decide, by decide⟩
  | num n =>
    simp only [stringifyV, SRes.ok.injEq] at h
    subst h
    by_cases hn : n < 0
    · rw [show intChars n = '-' :: natDigits n.natAbs by simp [intChars, hn]]
      exact ⟨'-', _, rfl, by decide, by decide⟩
    · rw [show intChars n = natDigits n.toNat by simp [intChars, hn]]
      obtain ⟨d, tl, hd, hdig⟩ := natDigits_head n.toNat
      obtain ⟨-, -, -, h4, -, h6, -, -, -, -, -, -⟩ := isDigit_not_special hdig
      exact ⟨d, tl, hd, h4, h6⟩
  | bool b =>
    cases b <;> simp only [stringifyV, SRes.ok.injEq] at h <;> subst h
    · exact ⟨'f', _, rfl, by decide, by decide⟩
    · exact ⟨'t', _, rfl, by decide, by decide⟩
  | null =>
    simp only [stringifyV, SRes.ok.injEq] at h
    subst h
    exact ⟨'n', _, rfl, by decide, by decide⟩
  | undef => simp [stringifyV] at h
  | func name => simp [stringifyV] at h
  | sym d => simp [stringifyV] at h
  | cyclic => simp [stringifyV] at h
  | arr xs =>
    simp only [stringifyV] at h
    cases he : stringifyElems xs with
    | none => rw [he] at h; cases h
    | some parts =>
      rw [he] at h
      injection h with h
      exact ⟨'[', _, h.symm, by decide, by decide⟩
  | obj fs =>
    simp only [stringifyV] at h
    cases he : stringifyFields fs with
    | none => rw [he] at h; cases h
    | some parts =>
      rw [he] at h
      injection h with h
      exact ⟨'{', _, h.symm, by decide, by decide⟩

mutual
theorem stringifyOkV (v : Value) (h : jsonCleanV v = true) :
    ∃ cs, stringifyV v = SRes.ok cs := by
  cases v with
  | str s => exact ⟨jstrChars s, by simp [stringifyV]⟩
  | num n => exact ⟨intChars n, by simp [stringifyV]⟩
  | bool b => cases b
              · exact ⟨"false".data, by simp [stringifyV]⟩
              · exact ⟨"true".data, by simp [stringifyV]⟩
  | null => exact ⟨"null".data, by simp [stringifyV]⟩
  | undef => simp [jsonCleanV] at h
  | func name => simp [jsonCleanV] at h
  | sym d => simp [jsonCleanV] at h
  | cyclic => simp [jsonCleanV] at h
  | arr xs =>
    obtain ⟨parts, hp⟩ := stringifyOkL xs (by simpa [jsonCleanV] using h)
    exact ⟨'[' :: (joinComma parts ++ [']']), by simp [stringifyV, hp]⟩
  | obj fs =>
    obtain ⟨parts, hp⟩ := stringifyOkF fs (by simpa [jsonCleanV] using h)
    exact ⟨'{' :: (joinComma parts ++ ['}']), by simp [stringifyV, hp]⟩
theorem stringifyOkL (xs : VList) (h : jsonCleanL xs = true) :
    ∃ parts, stringifyElems xs = some parts := by
  cases xs with
  | nil => exact ⟨[], by simp [stringifyElems]⟩
  | cons v tl =>
    simp only [jsonCleanL, Bool.and_eq_true] at h
    obtain ⟨cs, hv⟩ := stringifyOkV v h.1
    obtain ⟨t, ht⟩ := stringifyOkL tl h.2
    exact ⟨cs :: t, by simp [stringifyElems, hv, ht]⟩
theorem stringifyOkF (fs : VFields) (h : jsonCleanF fs = true) :
    ∃ parts, stringifyFields fs = some parts := by
  cases fs with
  | nil => exact ⟨[], by simp [stringifyFields]⟩
  | cons k v tl =>
    simp only [jsonCleanF, Bool.and_eq_true] at h
    obtain ⟨cs, hv⟩ := stringifyOkV v h.1
    obtain ⟨t, ht⟩ := stringifyOkF tl h.2
    exact ⟨(jstrChars k ++ ':' :: cs) :: t, by simp [stringifyFields, hv, ht]⟩
end

theorem elems_nil_of (tl : VList) (h : stringifyElems tl = some []) :
    tl = VList.nil := by
  cases tl with
  | nil => rfl
  | cons v tl' =>
    simp only [stringifyElems] at h
    cases hv : stringifyV v <;> rw [hv] at h <;>
      cases ht : stringifyElems tl' <;> rw [ht] at h <;> simp at h

theorem fields_nil_of (tl : VFields) (hclean : jsonCleanF tl = true)
    (h : stringifyFields tl = some []) : tl = VFields.nil := by
  cases tl with
  | nil => rfl
  | cons k v tl' =>
    simp only [jsonCleanF, Bool.and_eq_true] at hclean
    obtain ⟨cs, hv⟩ := stringifyOkV v hclean.1
    simp only [stringifyFields] at h
    rw [hv] at h
    cases ht : stringifyFields tl' <;> rw [ht] at h <;> simp at h

theorem jstrChars_length (s : String) :
    (jstrChars s).length = (escapeChars s.data).length + 2 := by
  simp [jstrChars]

mutual
theorem needV_le (v : Value) (cs : List Char) (hclean : jsonCleanV v = true)
    (h : stringifyV v = SRes.ok cs) : needV v ≤ cs.length := by
  cases v with
  | str s =>
    obtain ⟨c, tl, hcs, -, -⟩ := stringify_head _ _ h
    subst hcs
    simp [needV]
  | num n =>
    obtain ⟨c, tl, hcs, -, -⟩ := stringify_head _ _ h
    subst hcs
    simp [needV]
  | bool b =>
    obtain ⟨c, tl, hcs, -, -⟩ := stringify_head _ _ h
    subst hcs
    simp [needV]
  | null =>
    obtain ⟨c, tl, hcs, -, -⟩ := stringify_head _ _ h
    subst hcs
    simp [needV]
  | undef => simp [stringifyV] at h
  | func name => simp [stringifyV] at h
  | sym d => simp [stringifyV] at h
  | cyclic => simp [stringifyV] at h
  | arr xs =>
    simp only [stringifyV] at h
    cases he : stringifyElems xs with
    | none => rw [he] at h; cases h
    | some parts =>
      rw [he] at h
      injection h with h
      subst h
      have := needL_le xs parts (by simpa [jsonCleanV] using hclean) he
      simp only [needV, List.length_cons, List.length_append, List.length_singleton]
      omega
  | obj fs =>
    simp only [stringifyV] at h
    cases he : stringifyFields fs with
    | none => rw [he] at h; cases h
    | some parts =>
      rw [he] at h
      injection h with h
      subst h
      have := needF_le fs parts (by simpa [jsonCleanV] using hclean) he
      simp only [needV, List.length_cons, List.length_append, List.length_singleton]
      omega
theorem needL_le (xs : VList) (parts : List (List Char))
    (hclean : jsonCleanL xs = true)
    (h : stringifyElems xs = some parts) :
    needL xs ≤ (joinComma parts).length + 1 := by
  cases xs with
  | nil => simp [needL]
  | cons v tl =>
    simp only [jsonCleanL, Bool.and_eq_true] at hclean
    obtain ⟨cs, hv⟩ := stringifyOkV v hclean.1
    obtain ⟨t, ht⟩ := stringifyOkL tl hclean.2
    rw [show stringifyElems (VList.cons v tl) = some (cs :: t) by
      simp [stringifyElems, hv, ht]] at h
    injection h with h
    subst h
    have h1 := needV_le v cs hclean.1 hv
    have h2 := needL_le tl t hclean.2 ht
    cases t with
    | nil =>
      have htl := elems_nil_of tl ht
      subst htl
      simp only [needL, joinComma]
      omega
    | cons p ps =>
      simp only [needL, joinComma, List.length_append, List.length_cons] at h2 ⊢
      omega
theorem needF_le (fs : VFields) (parts : List (List Char))
    (hclean : jsonCleanF fs = true)
    (h : stringifyFields fs = some parts) :
    needF fs ≤ (joinComma parts).length + 1 := by
  cases fs with
  | nil => simp [needF]
  | cons k v tl =>
    simp only [jsonCleanF, Bool.and_eq_true] at hclean
    obtain ⟨cs, hv⟩ := stringifyOkV v hclean.1
    obtain ⟨t, ht⟩ := stringifyOkF tl hclean.2
    rw [show stringifyFields (VFields.cons k v tl) = some ((jstrChars k ++ ':' :: cs) :: t) by
      simp [stringifyFields, hv, ht]] at h
    injection h with h
    subst h
    have h1 := needV_le v cs hclean.1 hv
    have h2 := needF_le tl t hclean.2 ht
    have h3 := jstrChars_length k
    cases t with
    | nil =>
      have htl := fields_nil_of tl hclean.2 ht
      subst htl
      simp only [needF, joinComma, List.length_append, List.length_cons]
      omega
    | cons p ps =>
      simp only [needF, joinComma, List.length_append, List.length_cons] at h2 ⊢
      omega
end

mutual
theorem roundV (v : Value) (fuel : Nat) (cs rest : List Char)
    (hclean : jsonCleanV v = true) (hok : stringifyV v = SRes.ok cs)
    (hfuel : needV v ≤ fuel) (hrest : noDigitHead rest) :
    parseVal fuel (cs ++ rest) = some (v, rest) := by
  cases v with
  | str s =>
    simp only [stringifyV, SRes.ok.injEq] at hok
    subst hok
    cases fuel with
    | zero => simp [needV] at hfuel
    | succ f =>
      rw [show jstrChars s ++ rest = '"' :: (escapeChars s.data ++ '"' :: rest) by
        simp [jstrChars]]
      rw [parseVal_quote, parseStrChars_escape]
      rfl
  | num n =>
    simp only [stringifyV, SRes.ok.injEq] at hok
    subst hok
    cases fuel with
    | zero => simp [needV] at hfuel
    | succ f =>
      by_cases hn : n < 0
      · rw [show intChars n = '-' :: natDigits n.natAbs by simp [intChars, hn]]
        obtain ⟨d, dtl, hd, hdig⟩ := natDigits_head n.natAbs
        have htake := takeDigits_natDigits n.natAbs rest hrest
        rw [hd] at htake
        simp only [List.cons_append] at htake ⊢
        rw [hd]
        simp only [List.cons_append]
        rw [parseVal_neg f _ rest d dtl htake]
        have hval : digitsToNat 0 (d :: dtl) = n.natAbs := by
          rw [← hd, digitsToNat_natDigits_zero]
        rw [hval]
        have hcast : Int.ofNat n.natAbs = ((n.natAbs : Int)) := rfl
        have hneg : -(Int.ofNat n.natAbs) = n := by rw [hcast]; omega
        rw [hneg]
      · rw [show intChars n = natDigits n.toNat by simp [intChars, hn]]
        obtain ⟨d, dtl, hd, hdig⟩ := natDigits_head n.toNat
        have htake := takeDigits_natDigits n.toNat rest hrest
        rw [hd] at htake
        simp only [List.cons_append] at htake ⊢
        rw [hd]
        simp only [List.cons_append]
        rw [parseVal_digit f d _ rest d dtl hdig htake]
        have hval : digitsToNat 0 (d :: dtl) = n.toNat := by
          rw [← hd, digitsToNat_natDigits_zero]
        rw [hval]
        have hcast : Int.ofNat n.toNat = ((n.toNat : Int)) := rfl
        have hpos : Int.ofNat n.toNat = n := by rw [hcast]; omega
        rw [hpos]
  | bool b =>
    cases b with
    | false =>
      simp only [stringifyV, SRes.ok.injEq] at hok
      subst hok
      cases fuel with
      | zero => simp [needV] at hfuel
      | succ f =>
        rw [show ("false".data : List Char) ++ rest
          = 'f' :: 'a' :: 'l' :: 's' :: 'e' :: rest from rfl, parseVal_false]
    | true =>
      simp only [stringifyV, SRes.ok.injEq] at hok
      subst hok
      cases fuel with
      | zero => simp [needV] at hfuel
      | succ f =>
        rw [show ("true".data : List Char) ++ rest
          = 't' :: 'r' :: 'u' :: 'e' :: rest from rfl, parseVal_true]
  | null =>
    simp only [stringifyV, SRes.ok.injEq] at hok
    subst hok
    cases fuel with
    | zero => simp [needV] at hfuel
    | succ f =>
      rw [show ("null".data : List Char) ++ rest
        = 'n' :: 'u' :: 'l' :: 'l' :: rest from rfl, parseVal_null]
  | undef => simp [stringifyV] at hok
  | func name => simp [stringifyV] at hok
  | sym d => simp [stringifyV] at hok
  | cyclic => simp [stringifyV] at hok
  | arr xs =>
    simp only [stringifyV] at hok
    cases he : stringifyElems xs with
    | none => rw [he] at hok; cases hok
    | some parts =>
      rw [he] at hok
      injection hok with hok
      subst hok
      cases fuel with
      | zero =>
        have := needV_pos (Value.arr xs)
        omega
      | succ f =>
        cases xs with
        | nil =>
          have hparts : parts = [] := by
            have h0 : stringifyElems VList.nil = some [] := by simp [stringifyElems]
            rw [h0] at he
            injection he with he
            exact he.symm
          subst hparts
          rw [show ('[' :: (joinComma [] ++ [']'])) ++ rest = '[' :: ']' :: rest by
            simp [joinComma]]
          rw [parseVal_arrNil]
        | cons v tl =>
          simp only [jsonCleanV] at hclean
          have hclean2 := hclean
          simp only [jsonCleanL, Bool.and_eq_true] at hclean2
          obtain ⟨cs0, hv⟩ := stringifyOkV v hclean2.1
          obtain ⟨t, ht⟩ := stringifyOkL tl hclean2.2
          have hparts : parts = cs0 :: t := by
            rw [show stringifyElems (VList.cons v tl) = some (cs0 :: t) by
              simp [stringifyElems, hv, ht]] at he
            injection he with he
            exact he.symm
          subst hparts
          obtain ⟨c0, ctl0, hc0, hcne, -⟩ := stringify_head v cs0 hv
          subst hc0
          obtain ⟨jtl, hjoin⟩ := joinComma_head c0 ctl0 t
          rw [hjoin]
          rw [show ('[' :: ((c0 :: jtl) ++ [']'])) ++ rest
            = '[' :: c0 :: (jtl ++ ']' :: rest) by simp]
          rw [parseVal_arrCons f c0 _ hcne]
          have hinput : c0 :: (jtl ++ ']' :: rest)
              = joinComma ((c0 :: ctl0) :: t) ++ ']' :: rest := by
            rw [hjoin]
            simp
          rw [hinput]
          rw [roundL (VList.cons v tl) f ((c0 :: ctl0) :: t) rest (by simp) hclean
            he (by simp only [needV] at hfuel; omega) hrest]
          rfl
  | obj fs =>
    simp only [stringifyV] at hok
    cases he : stringifyFields fs with
    | none => rw [he] at hok; cases hok
    | some parts =>
      rw [he] at hok
      injection hok with hok
      subst hok
      cases fuel with
      | zero =>
        have := needV_pos (Value.obj fs)
        omega
      | succ f =>
        cases fs with
        | nil =>
          have hparts : parts = [] := by
            have h0 : stringifyFields VFields.nil = some [] := by
              simp [stringifyFields]
            rw [h0] at he
            injection he with he
            exact he.symm
          subst hparts
          rw [show ('{' :: (joinComma [] ++ ['}'])) ++ rest = '{' :: '}' :: rest by
            simp [joinComma]]
          rw [parseVal_objNil]
        | cons k v tl =>
          simp only [jsonCleanV] at hclean
          have hclean2 := hclean
          simp only [jsonCleanF, Bool.and_eq_true] at hclean2
          obtain ⟨cs0, hv⟩ := stringifyOkV v hclean2.1
          obtain ⟨t, ht⟩ := stringifyOkF tl hclean2.2
          have hparts : parts = (jstrChars k ++ ':' :: cs0) :: t := by
            rw [show stringifyFields (VFields.cons k v tl)
                = some ((jstrChars k ++ ':' :: cs0) :: t) by
              simp [stringifyFields, hv, ht]] at he
            injection he with he
            exact he.symm
          subst hparts
          have hm0 : jstrChars k ++ ':' :: cs0
              = '"' :: (escapeChars k.data ++ '"' :: ':' :: cs0) := by
            simp [jstrChars]
          obtain ⟨jtl, hjoin⟩ :=
            joinComma_head '"' (escapeChars k.data ++ '"' :: ':' :: cs0) t
          rw [hm0, hjoin]
          rw [show ('{' :: (('"' :: jtl) ++ ['}'])) ++ rest
            = '{' :: '"' :: (jtl ++ '}' :: rest) by simp]
          rw [parseVal_objCons f '"' _ (by decide)]
          have hinput : '"' :: (jtl ++ '}' :: rest)
              = joinComma (('"' :: (escapeChars k.data ++ '"' :: ':' :: cs0)) :: t)
                ++ '}' :: rest := by
            rw [hjoin]
            simp
          rw [hinput, ← hm0]
          rw [roundF (VFields.cons k v tl) f ((jstrChars k ++ ':' :: cs0) :: t) rest
            (by simp) hclean he (by simp only [needV] at hfuel; omega) hrest]
          rfl
theorem roundL (xs : VList) (fuel : Nat) (parts : List (List Char))
    (rest : List Char) (hne : xs ≠ VList.nil)
    (hclean : jsonCleanL xs = true) (hok : stringifyElems xs = some parts)
    (hfuel : needL xs ≤ fuel) (hrest : noDigitHead rest) :
    parseElems fuel (joinComma parts ++ ']' :: rest) = some (xs, rest) := by
  cases xs with
  | nil => exact absurd rfl hne
  | cons v tl =>
    simp only [jsonCleanL, Bool.and_eq_true] at hclean
    obtain ⟨cs0, hv⟩ := stringifyOkV v hclean.1
    obtain ⟨t, ht⟩ := stringifyOkL tl hclean.2
    have hparts : parts = cs0 :: t := by
      rw [show stringifyElems (VList.cons v tl) = some (cs0 :: t) by
        simp [stringifyElems, hv, ht]] at hok
      injection hok with hok
      exact hok.symm
    subst hparts
    cases fuel with
    | zero => simp [needL] at hfuel
    | succ f =>
      simp only [needL] at hfuel
      cases tl with
      | nil =>
        have htnil : t = [] := by
          have h0 : stringifyElems VList.nil = some [] := by simp [stringifyElems]
          rw [h0] at ht
          injection ht with ht
          exact ht.symm
        subst htnil
        rw [show joinComma [cs0] = cs0 from rfl]
        exact parseElems_done f _ v rest
          (roundV v f cs0 (']' :: rest) hclean.1 hv (by omega)
            (noDigitHead_cons (by decide) rest))
      | cons v2 tl2 =>
        have hcl2 := hclean.2
        simp only [jsonCleanL, Bool.and_eq_true] at hcl2
        obtain ⟨cs2, hv2⟩ := stringifyOkV v2 hcl2.1
        obtain ⟨t2, ht2⟩ := stringifyOkL tl2 hcl2.2
        have htne : t = cs2 :: t2 := by
          rw [show stringifyElems (VList.cons v2 tl2) = some (cs2 :: t2) by
            simp [stringifyElems, hv2, ht2]] at ht
          injection ht with ht
          exact ht.symm
        subst htne
        rw [show joinComma (cs0 :: cs2 :: t2)
          = cs0 ++ ',' :: joinComma (cs2 :: t2) from rfl]
        rw [show (cs0 ++ ',' :: joinComma (cs2 :: t2)) ++ ']' :: rest
          = cs0 ++ ',' :: (joinComma (cs2 :: t2) ++ ']' :: rest) by simp]
        rw [parseElems_more f _ v _
          (roundV v f cs0 (',' :: (joinComma (cs2 :: t2) ++ ']' :: rest))
            hclean.1 hv (by omega) (noDigitHead_cons (by decide) _))]
        rw [roundL (VList.cons v2 tl2) f (cs2 :: t2) rest (by simp) hclean.2 ht
          (by omega) hrest]
        rfl
theorem roundF (fs : VFields) (fuel : Nat) (parts : List (List Char))
    (rest : List Char) (hne : fs ≠ VFields.nil)
    (hclean : jsonCleanF fs = true) (hok : stringifyFields fs = some parts)
    (hfuel : needF fs ≤ fuel) (hrest : noDigitHead rest) :
    parseFieldList fuel (joinComma parts ++ '}' :: rest) = some (fs, rest) := by
  cases fs with
  | nil => exact absurd rfl hne
  | cons k v tl =>
    simp only [jsonCleanF, Bool.and_eq_true] at hclean
    obtain ⟨cs0, hv⟩ := stringifyOkV v hclean.1
    obtain ⟨t, ht⟩ := stringifyOkF tl hclean.2
    have hparts : parts = (jstrChars k ++ ':' :: cs0) :: t := by
      rw [show stringifyFields (VFields.cons k v tl)
          = some ((jstrChars k ++ ':' :: cs0) :: t) by
        simp [stringifyFields, hv, ht]] at hok
      injection hok with hok
      exact hok.symm
    subst hparts
    cases fuel with
    | zero => simp [needF] at hfuel
    | succ f =>
      simp only [needF] at hfuel
      cases tl with
      | nil =>
        have htnil : t = [] := by
          have h0 : stringifyFields VFields.nil = some [] := by
            simp [stringifyFields]
          rw [h0] at ht
          injection ht with ht
          exact ht.symm
        subst htnil
        rw [show joinComma [jstrChars k ++ ':' :: cs0]
          = jstrChars k ++ ':' :: cs0 from rfl]
        rw [show (jstrChars k ++ ':' :: cs0) ++ '}' :: rest
          = '"' :: (escapeChars k.data ++ '"' :: ':' :: (cs0 ++ '}' :: rest)) by
          simp [jstrChars]]
        rw [parseFieldList_done f k.data (cs0 ++ '}' :: rest) v rest
          (roundV v f cs0 ('}' :: rest) hclean.1 hv (by omega)
            (noDigitHead_cons (by decide) rest))]
      | cons k2 v2 tl2 =>
        have hcl2 := hclean.2
        simp only [jsonCleanF, Bool.and_eq_true] at hcl2
        obtain ⟨cs2, hv2⟩ := stringifyOkV v2 hcl2.1
        obtain ⟨t2, ht2⟩ := stringifyOkF tl2 hcl2.2
        have htne : t = (jstrChars k2 ++ ':' :: cs2) :: t2 := by
          rw [show stringifyFields (VFields.cons k2 v2 tl2)
              = some ((jstrChars k2 ++ ':' :: cs2) :: t2) by
            simp [stringifyFields, hv2, ht2]] at ht
          injection ht with ht
          exact ht.symm
        subst htne
        rw [show joinComma ((jstrChars k ++ ':' :: cs0)
            :: (jstrChars k2 ++ ':' :: cs2) :: t2)
          = (jstrChars k ++ ':' :: cs0)
            ++ ',' :: joinComma ((jstrChars k2 ++ ':' :: cs2) :: t2) from rfl]
        rw [show ((jstrChars k ++ ':' :: cs0)
              ++ ',' :: joinComma ((jstrChars k2 ++ ':' :: cs2) :: t2)) ++ '}' :: rest
          = '"' :: (escapeChars k.data ++ '"' :: ':' :: (cs0
              ++ ',' :: (joinComma ((jstrChars k2 ++ ':' :: cs2) :: t2)
                ++ '}' :: rest))) by simp [jstrChars]]
        rw [parseFieldList_more f k.data _ v _
          (roundV v f cs0
            (',' :: (joinComma ((jstrChars k2 ++ ':' :: cs2) :: t2) ++ '}' :: rest))
            hclean.1 hv (by omega) (noDigitHead_cons (by decide) _))]
        rw [roundF (VFields.cons k2 v2 tl2) f ((jstrChars k2 ++ ':' :: cs2) :: t2)
          rest (by simp) hclean.2 ht (by omega) hrest]
        rfl
end

/-- Parsing the `JSON.stringify` rendering of a JSON-clean value recovers
the value. -/
theorem jsonParse_stringify (v : Value) (cs : List Char)
    (hclean : jsonCleanV v = true) (hok : stringifyV v = SRes.ok cs) :
    jsonParse (String.mk cs) = some v := by
  have hneed := needV_le v cs hclean hok
  have h := roundV v (cs.length + 1) cs [] hclean hok (by omega) noDigitHead_nil
  rw [List.append_nil] at h
  have hdata : (String.mk cs).data = cs := rfl
  have hlen : (String.mk cs).length = cs.length := rfl
  simp [jsonParse, hlen, hdata, h]

/-! ## JavaScript `String()` fallback rendering -/

mutual
/-- Model of JavaScript `String(value)` coercion (the fallback rendering
used by `serializeValue`). -/
def jsToString : Value → String
  | .str s => s
  | .num n => String.mk (intChars n)
  | .bool true => "true"
  | .bool false => "false"
  | .null => "null"
  | .undef => "undefined"
  | .func name => "function " ++ name
  | .sym d => "Symbol(" ++ d ++ ")"
  | .arr xs => arrToString xs
  | .obj _ => "[object Object]"
  | .cyclic => "[object Object]"
  termination_by v => (sizeOf v, 0)
/-- `Array.prototype.toString`: comma-joined elements. -/
def arrToString : VList → String
  | .nil => ""
  | .cons v .nil => elemToString v
  | .cons v tl => elemToString v ++ "," ++ arrToString tl
  termination_by xs => (sizeOf xs, 1)
/-- One array element under `Array.prototype.toString`: `null` and
`undefined` render as the empty string. -/
def elemToString : Value → String
  | .null => ""
  | .undef => ""
  | v => jsToString v
  termination_by v => (sizeOf v, 1)
end

/-! ## Errors -/

/-- JavaScript `Error` values observable in this layer: the adapter's own
`CallbackSaverError` (with optional `cause`), or any other backend error. -/
inductive JsError where
  | callbackSaverError (message : String) (cause : Option JsError)
  | error (message : String)

/-- The `message` property of an error. -/
def JsError.message : JsError → String
  | .callbackSaverError m _ => m
  | .error m => m

/-- Boolean equality on errors (nested recursion through the optional
cause keeps the derive handler from producing this). -/
def JsError.beqFn : JsError → JsError → Bool
  | .error m1, .error m2 => m1 == m2
  | .callbackSaverError m1 none, .callbackSaverError m2 none => m1 == m2
  | .callbackSaverError m1 (some c1), .callbackSaverError m2 (some c2) =>
    m1 == m2 && JsError.beqFn c1 c2
  | _, _ => false

theorem JsError.beqFn_iff : ∀ a b : JsError, JsError.beqFn a b = true ↔ a = b
  | .error m1, .error m2 => by simp [JsError.beqFn]
  | .error m1, .callbackSaverError m2 c2 => by cases c2 <;> simp [JsError.beqFn]
  | .callbackSaverError m1 none, .error m2 => by simp [JsError.beqFn]
  | .callbackSaverError m1 (some c1), .error m2 => by simp [JsError.beqFn]
  | .callbackSaverError m1 none, .callbackSaverError m2 none => by
    simp [JsError.beqFn]
  | .callbackSaverError m1 none, .callbackSaverError m2 (some c2) => by
    simp [JsError.beqFn]
  | .callbackSaverError m1 (some c1), .callbackSaverError m2 none => by
    simp [JsError.beqFn]
  | .callbackSaverError m1 (some c1), .callbackSaverError m2 (some c2) => by
    simp [JsError.beqFn, JsError.beqFn_iff c1 c2]

instance : DecidableEq JsError :=
  fun a b => decidable_of_iff _ (JsError.beqFn_iff a b)

instance {ε α : Type} [DecidableEq ε] [DecidableEq α] :
    DecidableEq (Except ε α)
  | .ok x, .ok y =>
    match decEq x y with
    | isTrue h => isTrue (h ▸ rfl)
    | isFalse h => isFalse (fun hh => h (Except.ok.inj hh))
  | .error x, .error y =>
    match decEq x y with
    | isTrue h => isTrue (h ▸ rfl)
    | isFalse h => isFalse (fun hh => h (Except.error.inj hh))
  | .ok _, .error _ => isFalse Except.noConfusion
  | .error _, .ok _ => isFalse Except.noConfusion

/-! ## Data structures of `types.ts` and the LangGraph interface -/

/-- The `configurable` bag of a `RunnableConfig`, restricted to the keys
this adapter reads or writes. -/
structure Configurable where
  thread_id : Option String := none
  checkpoint_ns : Option String := none
  checkpoint_id : Option String := none
  checkpoint_parent_id : Option String := none
deriving DecidableEq

/-- LangGraph `RunnableConfig`. -/
structure RunnableConfig where
  configurable : Option Configurable := none
deriving DecidableEq

/-- A LangGraph `Checkpoint`: the adapter reads only its `id`; the rest of
the snapshot is opaque payload. -/
structure Checkpoint where
  id : String
  body : Value
deriving DecidableEq

/-- `StoredCheckpoint` of `types.ts` (`namespace` is a Lean keyword, so
the field is spelled `nameSpace`; `Date`s are modelled as `Nat`
timestamps). -/
structure StoredCheckpoint where
  threadId : String
  nameSpace : String
  checkpointId : String
  parentCheckpointId : Option String := none
  checkpoint : Checkpoint
  metadata : Value
  createdAt : Nat
  expiresAt : Option Nat := none
deriving DecidableEq

/-- `StoredWrite` of `types.ts`. -/
structure StoredWrite where
  threadId : String
  nameSpace : String
  checkpointId : String
  taskId : String
  idx : Nat
  channel : String
  type : String
  value : Value
  createdAt : Nat
  expiresAt : Option Nat := none
deriving DecidableEq

/-- `ListCheckpointsOptions` of `types.ts`: the request shape sent to the
backend `listCheckpoints` callback. -/
structure ListCheckpointsOptions where
  threadId : String
  nameSpace : String
  limit : Option Nat := none
  before : Option String := none
  filter : Option Value := none
deriving DecidableEq

/-- Result shape of the `listCheckpoints` callback. -/
structure ListCheckpointsResult where
  checkpoints : List StoredCheckpoint
  nextCursor : Option String := none
deriving DecidableEq

/-- LangGraph `CheckpointTuple`. -/
structure CheckpointTuple where
  config : RunnableConfig
  checkpoint : Checkpoint
  metadata : Value
  parentConfig : Option RunnableConfig := none
  pendingWrites : List (String × String × Value)
deriving DecidableEq

/-- LangGraph `CheckpointListOptions` (the `options` argument of `list`). -/
structure CheckpointListOptions where
  limit : Option Nat := none
  before : Option RunnableConfig := none
  filter : Option Value := none
deriving DecidableEq

/-- `CallbackSaverConfig` of `types.ts`: the backend callback set plus
options.  Callbacks are modelled as pure functions returning
`Except JsError`, promise rejection being the `.error` case. -/
structure CallbackSaverConfig where
  getCheckpoint :
    String → String → Option String → Except JsError (Option StoredCheckpoint)
  putCheckpoint : StoredCheckpoint → Except JsError Unit
  getWrites : String → String → String → Except JsError (List StoredWrite)
  putWrites : List StoredWrite → Except JsError Unit
  listCheckpoints : ListCheckpointsOptions → Except JsError ListCheckpointsResult
  deleteThread : String → Except JsError Unit
  nameSpace : Option String := none
  serialize : Option Bool := none

/-- One backend callback invocation, as recorded in an operation's trace. -/
inductive BackendCall where
  | getCheckpoint (threadId nameSpace : String) (checkpointId : Option String)
  | putCheckpoint (checkpoint : StoredCheckpoint)
  | getWrites (threadId nameSpace checkpointId : String)
  | putWrites (writes : List StoredWrite)
  | listCheckpoints (options : ListCheckpointsOptions)
  | deleteThread (threadId : String)
deriving DecidableEq

/-! ## Truthiness helpers (JavaScript `||` and `!` on option values) -/

/-- JavaScript truthiness of an optional string: `none` for a missing or
empty (falsy) string, `some` of the string otherwise. -/
def truthyStr : Option String → Option String
  | some s => if s = "" then none else some s
  | none => none

/-- JavaScript `a || b` for an optional string with a string fallback. -/
def strOrElse (a : Option String) (b : String) : String :=
  match truthyStr a with
  | some s => s
  | none => b

/-- JavaScript truthiness of an optional number (`0` is falsy). -/
def truthyNat : Option Nat → Option Nat
  | some n => if n = 0 then none else some n
  | none => none

/-! ## The `CallbackSaver` class -/

/-- The saver, holding its constructor-merged configuration. -/
structure CallbackSaver where
  config : CallbackSaverConfig

/-- The constructor:
`this.config = { namespace: 'default', serialize: true, ...config }`. -/
def CallbackSaver.new (config : CallbackSaverConfig) : CallbackSaver :=
  ⟨{ config with
      nameSpace := some (config.nameSpace.getD "default"),
      serialize := some (config.serialize.getD true) }⟩

/-- `config.configurable?.thread_id`. -/
def RunnableConfig.threadId (c : RunnableConfig) : Option String :=
  c.configurable.bind (·.thread_id)

/-- `config.configurable?.checkpoint_ns`. -/
def RunnableConfig.checkpointNs (c : RunnableConfig) : Option String :=
  c.configurable.bind (·.checkpoint_ns)

/-- `config.configurable?.checkpoint_id`. -/
def RunnableConfig.checkpointId (c : RunnableConfig) : Option String :=
  c.configurable.bind (·.checkpoint_id)

/-- `config.configurable?.checkpoint_ns || this.config.namespace ||
'default'`, the namespace resolution repeated in every operation. -/
def CallbackSaver.resolveNamespace (s : CallbackSaver) (config : RunnableConfig) :
    String :=
  strOrElse config.checkpointNs (strOrElse s.config.nameSpace "default")

/-- `this.config.serialize === false`. -/
def CallbackSaver.serializeOff (s : CallbackSaver) : Bool :=
  s.config.serialize == some false

/-- `serializeValue` of `saver.ts`: `JSON.stringify`, falling back to
`String(value)` when it returns `undefined` or throws. -/
def CallbackSaver.serializeValue (s : CallbackSaver) (value : Value) : Value :=
  if s.serializeOff then value
  else
    match stringifyV value with
    | .ok cs => .str (String.mk cs)
    | .undef => .str (jsToString value)
    | .thrown => .str (jsToString value)

/-- `deserializeValue` of `saver.ts`: non-strings pass through, strings are
`JSON.parse`d, and on a parse failure returned unchanged. -/
def CallbackSaver.deserializeValue (s : CallbackSaver) (value : Value) : Value :=
  if s.serializeOff then value
  else
    match value with
    | .str str =>
      match jsonParse str with
      | some v => v
      | none => .str str
    | v => v

/-- The precondition error thrown when `thread_id` is missing. -/
def missingThreadError : JsError :=
  .callbackSaverError "thread_id is required in config.configurable" none

/-- The precondition error thrown when `checkpoint_id` is missing. -/
def missingCheckpointError : JsError :=
  .callbackSaverError "checkpoint_id is required in config.configurable" none

/-- The catch-block of every public operation: re-raise as a
`CallbackSaverError` whose message names the operation and whose `cause`
is the original error. -/
def wrapError (opMessage : String) (e : JsError) : JsError :=
  .callbackSaverError (opMessage ++ ": " ++ e.message) (some e)

/-- Apply the catch-block to a result-with-trace pair. -/
def wrapResult (opMessage : String) :
    Except JsError α × List BackendCall → Except JsError α × List BackendCall
  | (.error e, t) => (.error (wrapError opMessage e), t)
  | (.ok a, t) => (.ok a, t)

/-- Assemble a `CheckpointTuple` from a stored checkpoint and its writes —
the identical object literal appears in both `getTuple` and `list`
(truthiness spreads model `...(parentCheckpointId && { ... })` and the
ternary `parentCheckpointId ? { ... } : undefined`). -/
def CallbackSaver.makeTuple (s : CallbackSaver) (sc : StoredCheckpoint)
    (writes : List StoredWrite) : CheckpointTuple :=
  { config := { configurable := some {
      thread_id := some sc.threadId,
      checkpoint_ns := some sc.nameSpace,
      checkpoint_id := some sc.checkpointId,
      checkpoint_parent_id := truthyStr sc.parentCheckpointId } },
    checkpoint := sc.checkpoint,
    metadata := sc.metadata,
    parentConfig := (truthyStr sc.parentCheckpointId).map (fun p =>
      { configurable := some {
          thread_id := some sc.threadId,
          checkpoint_ns := some sc.nameSpace,
          checkpoint_id := some p,
          checkpoint_parent_id := none } }),
    pendingWrites := writes.map (fun w => (w.taskId, w.channel,
      if s.serializeOff then w.value else s.deserializeValue w.value)) }

/-- `getTuple` before the surrounding try/catch, instrumented with the
backend-call trace. -/
def CallbackSaver.getTupleRaw (s : CallbackSaver) (config : RunnableConfig) :
    Except JsError (Option CheckpointTuple) × List BackendCall :=
  match truthyStr config.threadId with
  | none => (.error missingThreadError, [])
  | some threadId =>
    let nameSpace := s.resolveNamespace config
    let checkpointId := config.checkpointId
    match s.config.getCheckpoint threadId nameSpace checkpointId with
    | .error e => (.error e, [.getCheckpoint threadId nameSpace checkpointId])
    | .ok none => (.ok none, [.getCheckpoint threadId nameSpace checkpointId])
    | .ok (some sc) =>
      match s.config.getWrites sc.threadId sc.nameSpace sc.checkpointId with
      | .error e =>
        (.error e, [.getCheckpoint threadId nameSpace checkpointId,
          .getWrites sc.threadId sc.nameSpace sc.checkpointId])
      | .ok writes =>
        (.ok (some (s.makeTuple sc writes)),
          [.getCheckpoint threadId nameSpace checkpointId,
            .getWrites sc.threadId sc.nameSpace sc.checkpointId])

/-- `getTuple` of `saver.ts`. -/
def CallbackSaver.getTuple (s : CallbackSaver) (config : RunnableConfig) :
    Except JsError (Option CheckpointTuple) × List BackendCall :=
  wrapResult "Failed to get checkpoint tuple" (s.getTupleRaw config)

/-- `put` before the surrounding try/catch; `now` stands for the clock
value read by `new Date()`. -/
def CallbackSaver.putRaw (s : CallbackSaver) (config : RunnableConfig)
    (checkpoint : Checkpoint) (metadata : Value) (now : Nat) :
    Except JsError RunnableConfig × List BackendCall :=
  match truthyStr config.threadId with
  | none => (.error missingThreadError, [])
  | some threadId =>
    let nameSpace := s.resolveNamespace config
    let checkpointId := checkpoint.id
    let parentCheckpointId := config.checkpointId
    let storedCheckpoint : StoredCheckpoint :=
      { threadId, nameSpace, checkpointId, parentCheckpointId,
        checkpoint, metadata, createdAt := now, expiresAt := none }
    match s.config.putCheckpoint storedCheckpoint with
    | .error e => (.error e, [.putCheckpoint storedCheckpoint])
    | .ok _ =>
      (.ok { configurable := some {
          thread_id := some threadId,
          checkpoint_ns := some nameSpace,
          checkpoint_id := some checkpointId,
          checkpoint_parent_id := none } },
        [.putCheckpoint storedCheckpoint])

/-- `put` of `saver.ts` (`_newVersions` is accepted and ignored, as in the
source). -/
def CallbackSaver.put (s : CallbackSaver) (config : RunnableConfig)
    (checkpoint : Checkpoint) (metadata : Value)
    (_newVersions : List (String × String)) (now : Nat) :
    Except JsError RunnableConfig × List BackendCall :=
  wrapResult "Failed to save checkpoint" (s.putRaw config checkpoint metadata now)

/-- `writes.map((write, idx) => ...)`: map with the element's position. -/
def mapWithIndex (f : Nat → α → β) : Nat → List α → List β
  | _, [] => []
  | i, a :: tl => f i a :: mapWithIndex f (i + 1) tl

/-- The `StoredWrite` batch built by `putWrites`. -/
def CallbackSaver.storedWritesOf (s : CallbackSaver)
    (threadId nameSpace checkpointId taskId : String) (now : Nat)
    (writes : List (String × Value)) : List StoredWrite :=
  mapWithIndex (fun idx write =>
    { threadId, nameSpace, checkpointId, taskId, idx,
      channel := write.1, type := "write",
      value := if s.serializeOff then write.2 else s.serializeValue write.2,
      createdAt := now, expiresAt := none }) 0 writes

/-- `putWrites` before the surrounding try/catch. -/
def CallbackSaver.putWritesRaw (s : CallbackSaver) (config : RunnableConfig)
    (writes : List (String × Value)) (taskId : String) (now : Nat) :
    Except JsError Unit × List BackendCall :=
  match truthyStr config.threadId with
  | none => (.error missingThreadError, [])
  | some threadId =>
    let nameSpace := s.resolveNamespace config
    match truthyStr config.checkpointId with
    | none => (.error missingCheckpointError, [])
    | some checkpointId =>
      let storedWrites :=
        s.storedWritesOf threadId nameSpace checkpointId taskId now writes
      match s.config.putWrites storedWrites with
      | .error e => (.error e, [.putWrites storedWrites])
      | .ok _ => (.ok (), [.putWrites storedWrites])

/-- `putWrites` of `saver.ts`. -/
def CallbackSaver.putWrites (s : CallbackSaver) (config : RunnableConfig)
    (writes : List (String × Value)) (taskId : String) (now : Nat) :
    Except JsError Unit × List BackendCall :=
  wrapResult "Failed to save writes" (s.putWritesRaw config writes taskId now)

/-- `deleteThread` before the surrounding try/catch. -/
def CallbackSaver.deleteThreadRaw (s : CallbackSaver) (threadId : String) :
    Except JsError Unit × List BackendCall :=
  match s.config.deleteThread threadId with
  | .error e => (.error e, [.deleteThread threadId])
  | .ok _ => (.ok (), [.deleteThread threadId])

/-- `deleteThread` of `saver.ts`. -/
def CallbackSaver.deleteThread (s : CallbackSaver) (threadId : String) :
    Except JsError Unit × List BackendCall :=
  wrapResult "Failed to delete thread" (s.deleteThreadRaw threadId)

/-- Outcome of consuming the `list` generator: the tuples yielded before
termination, the error that ended it (if any), and the backend calls
made. -/
structure ListOutcome where
  tuples : List CheckpointTuple
  error : Option JsError
  calls : List BackendCall
deriving DecidableEq

/-- Per-page body of the `list` loop: fetch the writes of each checkpoint
of the page and build its tuple; an error stops the generator. -/
def CallbackSaver.processPage (s : CallbackSaver) :
    List StoredCheckpoint →
      List CheckpointTuple × Option JsError × List BackendCall
  | [] => ([], none, [])
  | sc :: tl =>
    match s.config.getWrites sc.threadId sc.nameSpace sc.checkpointId with
    | .error e =>
      ([], some e, [.getWrites sc.threadId sc.nameSpace sc.checkpointId])
    | .ok writes =>
      let rest := s.processPage tl
      (s.makeTuple sc writes :: rest.1, rest.2.1,
        .getWrites sc.threadId sc.nameSpace sc.checkpointId :: rest.2.2)

/-- The `do … while (nextCursor)` pagination loop of `list`.  The source
loop has no iteration cap; `fuel` bounds only the model. -/
def CallbackSaver.listLoop (s : CallbackSaver) :
    Nat → ListCheckpointsOptions → ListOutcome
  | 0, _ => ⟨[], none, []⟩
  | fuel + 1, listOptions =>
    match s.config.listCheckpoints listOptions with
    | .error e => ⟨[], some e, [.listCheckpoints listOptions]⟩
    | .ok result =>
      match s.processPage result.checkpoints with
      | (ts, some e, cs) => ⟨ts, some e, .listCheckpoints listOptions :: cs⟩
      | (ts, none, cs) =>
        match truthyStr result.nextCursor with
        | some cursor =>
          let out := s.listLoop fuel { listOptions with before := some cursor }
          ⟨ts ++ out.tuples, out.error,
            .listCheckpoints listOptions :: (cs ++ out.calls)⟩
        | none => ⟨ts, none, .listCheckpoints listOptions :: cs⟩

/-- The initial listing request built by `list` from its arguments
(`limit: _limit || options?.limit`, `before: _before?.configurable?.
checkpoint_id`, `filter: options?.filter`). -/
def CallbackSaver.listOptionsOf (s : CallbackSaver) (config : RunnableConfig)
    (options : Option CheckpointListOptions) (_before : Option RunnableConfig)
    (_limit : Option Nat) (threadId : String) : ListCheckpointsOptions :=
  { threadId,
    nameSpace := s.resolveNamespace config,
    limit := match truthyNat _limit with
      | some n => some n
      | none => options.bind (·.limit),
    before := (_before.bind (·.configurable)).bind (·.checkpoint_id),
    filter := options.bind (·.filter) }

/-- `list` before error wrapping. -/
def CallbackSaver.listRaw (s : CallbackSaver) (fuel : Nat)
    (config : RunnableConfig) (options : Option CheckpointListOptions)
    (_before : Option RunnableConfig) (_limit : Option Nat) : ListOutcome :=
  match truthyStr config.threadId with
  | none => ⟨[], some missingThreadError, []⟩
  | some threadId =>
    s.listLoop fuel (s.listOptionsOf config options _before _limit threadId)

/-- `list` of `saver.ts`: the generator, consumed to the end (or to its
first error, wrapped by the surrounding try/catch). -/
def CallbackSaver.list (s : CallbackSaver) (fuel : Nat)
    (config : RunnableConfig) (options : Option CheckpointListOptions)
    (_before : Option RunnableConfig) (_limit : Option Nat) : ListOutcome :=
  let out := s.listRaw fuel config options _before _limit
  { out with error := out.error.map (wrapError "Failed to list checkpoints") }

/-! ## General lemmas about the operations -/

theorem mapWithIndex_map_fst (f : Nat → α → β) (g : β → γ) (h : α → γ)
    (hg : ∀ i a, g (f i a) = h a) :
    ∀ (i : Nat) (l : List α), (mapWithIndex f i l).map g = l.map h := by
  intro i l
  induction l generalizing i with
  | nil => rfl
  | cons a tl ih => simp [mapWithIndex, hg, ih]

theorem mapWithIndex_map_idx (f : Nat → α → β) (g : β → Nat)
    (hg : ∀ i a, g (f i a) = i) :
    ∀ (i : Nat) (l : List α), (mapWithIndex f i l).map g = List.range' i l.length := by
  intro i l
  induction l generalizing i with
  | nil => rfl
  | cons a tl ih => simp [mapWithIndex, hg, ih, List.range']

theorem mapWithIndex_length (f : Nat → α → β) :
    ∀ (i : Nat) (l : List α), (mapWithIndex f i l).length = l.length := by
  intro i l
  induction l generalizing i with
  | nil => rfl
  | cons a tl ih => simp [mapWithIndex, ih]

/-! ## Shared concrete fixtures for witnesses and counterexamples -/

/-- A backend whose calls all succeed trivially (`getCheckpoint` finds
nothing). -/
def okBackend : CallbackSaverConfig :=
  { getCheckpoint := fun _ _ _ => .ok none,
    putCheckpoint := fun _ => .ok (),
    getWrites := fun _ _ _ => .ok [],
    putWrites := fun _ => .ok (),
    listCheckpoints := fun _ => .ok ⟨[], none⟩,
    deleteThread := fun _ => .ok () }

/-- The saver over `okBackend`, built by the constructor (defaults:
namespace `"default"`, serialize on). -/
def okSaver : CallbackSaver := CallbackSaver.new okBackend

/-- A config with `thread_id: "t1"` and `checkpoint_id: "c1"`. -/
def cfgTC : RunnableConfig :=
  { configurable := some { thread_id := some "t1", checkpoint_id := some "c1" } }

/-- A config with only `thread_id: "t1"`. -/
def cfgT : RunnableConfig :=
  { configurable := some { thread_id := some "t1" } }

/-- A config whose `configurable` is present but empty. -/
def cfgEmpty : RunnableConfig := { configurable := some {} }

/-! ## C1 -/

/-- C1: `putWrites` with `thread_id` and `checkpoint_id` present makes
exactly one backend `putWrites` call, whose batch records `idx` equal to
each pair's zero-based position in the caller's input list (and the
channels in the caller's order). -/
theorem putWrites_single_batch_positional_idx (s : CallbackSaver)
    (config : RunnableConfig) (tid cid : String)
    (writes : List (String × Value)) (taskId : String) (now : Nat)
    (htid : truthyStr config.threadId = some tid)
    (hcid : truthyStr config.checkpointId = some cid) :
    ∃ batch : List StoredWrite,
      (s.putWrites config writes taskId now).2 = [BackendCall.putWrites batch] ∧
      batch.map (·.idx) = List.range writes.length ∧
      batch.map (·.channel) = writes.map (·.1) ∧
      batch.length = writes.length := by
  refine ⟨s.storedWritesOf tid (s.resolveNamespace config) cid taskId now writes,
    ?_, ?_, ?_, ?_⟩
  · simp only [CallbackSaver.putWrites, CallbackSaver.putWritesRaw, htid, hcid]
    cases h : s.config.putWrites
        (s.storedWritesOf tid (s.resolveNamespace config) cid taskId now writes) <;>
      simp [wrapResult]
  · rw [CallbackSaver.storedWritesOf, List.range_eq_range']
    apply mapWithIndex_map_idx
    intro i a
    rfl
  · rw [CallbackSaver.storedWritesOf]
    apply mapWithIndex_map_fst
    intro i a
    rfl
  · rw [CallbackSaver.storedWritesOf, mapWithIndex_length]

/-- C1 witness: the three-write batch of the spec's example records idx
values 0, 1, 2. -/
theorem putWrites_single_batch_positional_idx_witness :
    truthyStr cfgTC.threadId = some "t1" ∧
    truthyStr cfgTC.checkpointId = some "c1" ∧
    ∃ batch : List StoredWrite,
      (okSaver.putWrites cfgTC
        [("ch1", .num 1), ("ch2", .num 2), ("ch3", .num 3)] "task" 0).2
        = [BackendCall.putWrites batch] ∧
      batch.map (·.idx) = List.range 3 ∧
      batch.map (·.channel) = ["ch1", "ch2", "ch3"] ∧
      batch.length = 3 :=
  ⟨by decide, by decide,
    putWrites_single_batch_positional_idx okSaver cfgTC "t1" "c1"
      [("ch1", .num 1), ("ch2", .num 2), ("ch3", .num 3)] "task" 0
      (by decide) (by decide)⟩

/-! ## C2 -/

/-- C2 counterexample: on a config with no `thread_id`, `getTuple` makes
zero backend calls, but the error surfaced to the caller is NOT the bare
precondition error: the operation's catch block wraps it in a fresh
`CallbackSaverError` naming the operation, with the precondition error as
its `cause`. -/
theorem getTuple_missing_thread_wrapped :
    (okSaver.getTuple cfgEmpty).2 = [] ∧
    (okSaver.getTuple cfgEmpty).1 ≠ Except.error missingThreadError ∧
    (okSaver.getTuple cfgEmpty).1
      = Except.error (JsError.callbackSaverError
          "Failed to get checkpoint tuple: thread_id is required in config.configurable"
          (some missingThreadError)) := by
  refine ⟨by decide, by decide, by decide⟩

/-- C2 (amended): a `getTuple` call without `thread_id`, and a `putWrites`
call without `checkpoint_id`, each raise their precondition error before
any backend callback is invoked (zero backend calls); the error reaches
the caller wrapped once by the operation's error boundary, as a
`CallbackSaverError` naming the operation whose `cause` is the
precondition error. -/
theorem precondition_errors_before_backend :
    (∀ (s : CallbackSaver) (config : RunnableConfig),
      truthyStr config.threadId = none →
      s.getTuple config
        = (.error (wrapError "Failed to get checkpoint tuple" missingThreadError),
           [])) ∧
    (∀ (s : CallbackSaver) (config : RunnableConfig)
      (writes : List (String × Value)) (taskId : String) (now : Nat)
      (tid : String),
      truthyStr config.threadId = some tid →
      truthyStr config.checkpointId = none →
      s.putWrites config writes taskId now
        = (.error (wrapError "Failed to save writes" missingCheckpointError),
           [])) := by
  constructor
  · intro s config h
    simp [CallbackSaver.getTuple, CallbackSaver.getTupleRaw, h, wrapResult]
  · intro s config writes taskId now tid htid hcid
    simp [CallbackSaver.putWrites, CallbackSaver.putWritesRaw, htid, hcid,
      wrapResult]

/-- C2 witness: both amended statements at concrete inputs. -/
theorem precondition_errors_before_backend_witness :
    truthyStr cfgEmpty.threadId = none ∧
    truthyStr cfgT.threadId = some "t1" ∧
    truthyStr cfgT.checkpointId = none ∧
    okSaver.getTuple cfgEmpty
      = (.error (wrapError "Failed to get checkpoint tuple" missingThreadError),
         []) ∧
    okSaver.putWrites cfgT [("ch", .num 1)] "task" 0
      = (.error (wrapError "Failed to save writes" missingCheckpointError), []) :=
  ⟨by decide, by decide, by decide,
    precondition_errors_before_backend.1 okSaver cfgEmpty (by decide),
    precondition_errors_before_backend.2 okSaver cfgT [("ch", .num 1)] "task" 0 "t1"
      (by decide) (by decide)⟩

/-! ## C3 -/

/-- C3: when the backend's `getCheckpoint` returns nothing, `getTuple`
returns the not-found result (`ok none`) without error, having made
exactly the one `getCheckpoint` call — in particular no `getWrites`
call. -/
theorem getTuple_not_found (s : CallbackSaver) (config : RunnableConfig)
    (tid : String) (htid : truthyStr config.threadId = some tid)
    (hget : s.config.getCheckpoint tid (s.resolveNamespace config)
        config.checkpointId = .ok none) :
    s.getTuple config
      = (.ok none,
         [.getCheckpoint tid (s.resolveNamespace config) config.checkpointId]) := by
  simp [CallbackSaver.getTuple, CallbackSaver.getTupleRaw, htid, hget, wrapResult]

/-- C3 witness. -/
theorem getTuple_not_found_witness :
    truthyStr cfgT.threadId = some "t1" ∧
    okSaver.config.getCheckpoint "t1" (okSaver.resolveNamespace cfgT)
      cfgT.checkpointId = .ok none ∧
    okSaver.getTuple cfgT
      = (.ok none,
         [.getCheckpoint "t1" (okSaver.resolveNamespace cfgT) cfgT.checkpointId]) :=
  ⟨by decide, rfl,
    getTuple_not_found okSaver cfgT "t1" (by decide) rfl⟩

/-! ## C4 -/

/-- C4: whichever backend callback rejects with an error `e`, the
operation surfaces exactly one `CallbackSaverError` whose message names
the failed high-level operation and whose `cause` is `e`, and the trace
shows the failing callback was invoked exactly once (no retry): stated
for `getTuple` (both callbacks), `put`, `putWrites`, `deleteThread`, and
`list`. -/
theorem backend_failures_wrapped_once :
    (∀ (s : CallbackSaver) (config : RunnableConfig) (tid : String) (e : JsError),
      truthyStr config.threadId = some tid →
      s.config.getCheckpoint tid (s.resolveNamespace config) config.checkpointId
        = .error e →
      s.getTuple config
        = (.error (wrapError "Failed to get checkpoint tuple" e),
           [.getCheckpoint tid (s.resolveNamespace config) config.checkpointId])) ∧
    (∀ (s : CallbackSaver) (config : RunnableConfig) (tid : String)
      (sc : StoredCheckpoint) (e : JsError),
      truthyStr config.threadId = some tid →
      s.config.getCheckpoint tid (s.resolveNamespace config) config.checkpointId
        = .ok (some sc) →
      s.config.getWrites sc.threadId sc.nameSpace sc.checkpointId = .error e →
      s.getTuple config
        = (.error (wrapError "Failed to get checkpoint tuple" e),
           [.getCheckpoint tid (s.resolveNamespace config) config.checkpointId,
            .getWrites sc.threadId sc.nameSpace sc.checkpointId])) ∧
    (∀ (s : CallbackSaver) (config : RunnableConfig) (checkpoint : Checkpoint)
      (metadata : Value) (nv : List (String × String)) (now : Nat)
      (tid : String) (e : JsError),
      truthyStr config.threadId = some tid →
      (∀ rec, s.config.putCheckpoint rec = .error e) →
      ∃ rec, s.put config checkpoint metadata nv now
        = (.error (wrapError "Failed to save checkpoint" e), [.putCheckpoint rec])) ∧
    (∀ (s : CallbackSaver) (config : RunnableConfig)
      (writes : List (String × Value)) (taskId : String) (now : Nat)
      (tid cid : String) (e : JsError),
      truthyStr config.threadId = some tid →
      truthyStr config.checkpointId = some cid →
      (∀ ws, s.config.putWrites ws = .error e) →
      ∃ batch, s.putWrites config writes taskId now
        = (.error (wrapError "Failed to save writes" e), [.putWrites batch])) ∧
    (∀ (s : CallbackSaver) (threadId : String) (e : JsError),
      s.config.deleteThread threadId = .error e →
      s.deleteThread threadId
        = (.error (wrapError "Failed to delete thread" e), [.deleteThread threadId])) ∧
    (∀ (s : CallbackSaver) (fuel : Nat) (config : RunnableConfig)
      (options : Option CheckpointListOptions) (bef : Option RunnableConfig)
      (lim : Option Nat) (tid : String) (e : JsError),
      truthyStr config.threadId = some tid →
      (∀ opts, s.config.listCheckpoints opts = .error e) →
      s.list (fuel + 1) config options bef lim
        = ⟨[], some (wrapError "Failed to list checkpoints" e),
            [.listCheckpoints (s.listOptionsOf config options bef lim tid)]⟩) ∧
    (∀ (s : CallbackSaver) (fuel : Nat) (config : RunnableConfig)
      (options : Option CheckpointListOptions) (bef : Option RunnableConfig)
      (lim : Option Nat) (tid : String) (e : JsError)
      (page : ListCheckpointsResult) (sc : StoredCheckpoint)
      (cps : List StoredCheckpoint),
      truthyStr config.threadId = some tid →
      s.config.listCheckpoints (s.listOptionsOf config options bef lim tid)
        = .ok page →
      page.checkpoints = sc :: cps →
      s.config.getWrites sc.threadId sc.nameSpace sc.checkpointId = .error e →
      s.list (fuel + 1) config options bef lim
        = ⟨[], some (wrapError "Failed to list checkpoints" e),
            [.listCheckpoints (s.listOptionsOf config options bef lim tid),
             .getWrites sc.threadId sc.nameSpace sc.checkpointId]⟩) := by
  refine ⟨?_, ?_, ?_, ?_, ?_, ?_, ?_⟩
  · intro s config tid e htid hget
    simp [CallbackSaver.getTuple, CallbackSaver.getTupleRaw, htid, hget, wrapResult]
  · intro s config tid sc e htid hget hw
    simp [CallbackSaver.getTuple, CallbackSaver.getTupleRaw, htid, hget, hw,
      wrapResult]
  · intro s config checkpoint metadata nv now tid e htid hput
    refine ⟨{ threadId := tid, nameSpace := s.resolveNamespace config,
              checkpointId := checkpoint.id,
              parentCheckpointId := config.checkpointId,
              checkpoint := checkpoint, metadata := metadata, createdAt := now,
              expiresAt := none }, ?_⟩
    simp only [CallbackSaver.put, CallbackSaver.putRaw, htid, hput, wrapResult]
  · intro s config writes taskId now tid cid e htid hcid hput
    refine ⟨s.storedWritesOf tid (s.resolveNamespace config) cid taskId now writes,
      ?_⟩
    simp only [CallbackSaver.putWrites, CallbackSaver.putWritesRaw, htid, hcid,
      hput, wrapResult]
  · intro s threadId e hdel
    simp [CallbackSaver.deleteThread, CallbackSaver.deleteThreadRaw, hdel,
      wrapResult]
  · intro s fuel config options bef lim tid e htid hlist
    simp [CallbackSaver.list, CallbackSaver.listRaw, CallbackSaver.listLoop, htid,
      hlist, wrapError]
  · intro s fuel config options bef lim tid e page sc cps htid hreq hpage hw
    simp [CallbackSaver.list, CallbackSaver.listRaw, CallbackSaver.listLoop, htid,
      hreq, hpage, CallbackSaver.processPage, hw, wrapError]

/-- A backend all of whose callbacks reject with `Error("boom")`. -/
def failBackend : CallbackSaverConfig :=
  { getCheckpoint := fun _ _ _ => .error (.error "boom"),
    putCheckpoint := fun _ => .error (.error "boom"),
    getWrites := fun _ _ _ => .error (.error "boom"),
    putWrites := fun _ => .error (.error "boom"),
    listCheckpoints := fun _ => .error (.error "boom"),
    deleteThread := fun _ => .error (.error "boom") }

/-- The saver over `failBackend`. -/
def failSaver : CallbackSaver := CallbackSaver.new failBackend

/-- A stored checkpoint used by several concrete fixtures. -/
def scFixture : StoredCheckpoint :=
  { threadId := "t1", nameSpace := "default", checkpointId := "c1",
    parentCheckpointId := none,
    checkpoint := { id := "c1", body := .num 0 },
    metadata := .null, createdAt := 0, expiresAt := none }

/-- A backend that finds `scFixture` but whose `getWrites` rejects. -/
def writesFailBackend : CallbackSaverConfig :=
  { failBackend with getCheckpoint := fun _ _ _ => .ok (some scFixture) }

/-- The saver over `writesFailBackend`. -/
def writesFailSaver : CallbackSaver := CallbackSaver.new writesFailBackend

/-- A backend that lists one page with `scFixture` but whose `getWrites`
rejects. -/
def listWritesFailBackend : CallbackSaverConfig :=
  { failBackend with listCheckpoints := fun _ => .ok ⟨[scFixture], none⟩ }

/-- The saver over `listWritesFailBackend`. -/
def listWritesFailSaver : CallbackSaver := CallbackSaver.new listWritesFailBackend

/-- C4 witness: every part of the theorem at a concrete failing backend. -/
theorem backend_failures_wrapped_once_witness :
    (failSaver.getTuple cfgT
      = (.error (wrapError "Failed to get checkpoint tuple" (.error "boom")),
         [.getCheckpoint "t1" "default" none])) ∧
    (writesFailSaver.getTuple cfgT
      = (.error (wrapError "Failed to get checkpoint tuple" (.error "boom")),
         [.getCheckpoint "t1" "default" none, .getWrites "t1" "default" "c1"])) ∧
    (∃ rec, failSaver.put cfgT { id := "c9", body := .null } .null [] 7
      = (.error (wrapError "Failed to save checkpoint" (.error "boom")),
         [.putCheckpoint rec])) ∧
    (∃ batch, failSaver.putWrites cfgTC [("ch", .num 1)] "task" 7
      = (.error (wrapError "Failed to save writes" (.error "boom")),
         [.putWrites batch])) ∧
    (failSaver.deleteThread "t1"
      = (.error (wrapError "Failed to delete thread" (.error "boom")),
         [.deleteThread "t1"])) ∧
    (failSaver.list 1 cfgT none none none
      = ⟨[], some (wrapError "Failed to list checkpoints" (.error "boom")),
          [.listCheckpoints (failSaver.listOptionsOf cfgT none none none "t1")]⟩) ∧
    (listWritesFailSaver.list 1 cfgT none none none
      = ⟨[], some (wrapError "Failed to list checkpoints" (.error "boom")),
          [.listCheckpoints
             (listWritesFailSaver.listOptionsOf cfgT none none none "t1"),
           .getWrites "t1" "default" "c1"]⟩) := by
  refine ⟨?_, ?_, ?_, ?_, ?_, ?_, ?_⟩
  · exact backend_failures_wrapped_once.1 failSaver cfgT "t1" (.error "boom")
      (by decide) rfl
  · exact backend_failures_wrapped_once.2.1 writesFailSaver cfgT "t1" scFixture
      (.error "boom") (by decide) rfl rfl
  · exact backend_failures_wrapped_once.2.2.1 failSaver cfgT
      { id := "c9", body := .null } .null [] 7 "t1" (.error "boom") (by decide)
      (fun _ => rfl)
  · exact backend_failures_wrapped_once.2.2.2.1 failSaver cfgTC [("ch", .num 1)]
      "task" 7 "t1" "c1" (.error "boom") (by decide) (by decide) (fun _ => rfl)
  · exact backend_failures_wrapped_once.2.2.2.2.1 failSaver "t1" (.error "boom") rfl
  · exact backend_failures_wrapped_once.2.2.2.2.2.1 failSaver 0 cfgT none none none
      "t1" (.error "boom") (by decide) (fun _ => rfl)
  · exact backend_failures_wrapped_once.2.2.2.2.2.2 listWritesFailSaver 0 cfgT none
      none none "t1" (.error "boom") ⟨[scFixture], none⟩ scFixture [] (by decide)
      rfl rfl rfl

/-! ## C6 -/

/-- C6: `put` with `thread_id` present sends the backend one
`StoredCheckpoint` whose `checkpointId` is `checkpoint.id` (from the body)
and whose `parentCheckpointId` is the config's `checkpoint_id`, and
returns a config whose `configurable` holds exactly that thread id, the
resolved namespace and `checkpoint.id`. -/
theorem put_identity_from_body_parent_from_config (s : CallbackSaver)
    (config : RunnableConfig) (checkpoint : Checkpoint) (metadata : Value)
    (nv : List (String × String)) (now : Nat) (tid : String)
    (htid : truthyStr config.threadId = some tid)
    (hok : ∀ rec, s.config.putCheckpoint rec = .ok ()) :
    ∃ sc : StoredCheckpoint,
      (s.put config checkpoint metadata nv now).2 = [.putCheckpoint sc] ∧
      sc.checkpointId = checkpoint.id ∧
      sc.parentCheckpointId = config.checkpointId ∧
      sc.threadId = tid ∧
      sc.nameSpace = s.resolveNamespace config ∧
      sc.checkpoint = checkpoint ∧
      sc.metadata = metadata ∧
      (s.put config checkpoint metadata nv now).1
        = .ok { configurable := some {
            thread_id := some tid,
            checkpoint_ns := some (s.resolveNamespace config),
            checkpoint_id := some checkpoint.id,
            checkpoint_parent_id := none } } := by
  refine ⟨{ threadId := tid, nameSpace := s.resolveNamespace config,
            checkpointId := checkpoint.id,
            parentCheckpointId := config.checkpointId,
            checkpoint := checkpoint, metadata := metadata, createdAt := now,
            expiresAt := none }, ?_, rfl, rfl, rfl, rfl, rfl, rfl, ?_⟩ <;>
    simp only [CallbackSaver.put, CallbackSaver.putRaw, htid, hok, wrapResult]

/-- C6 witness. -/
theorem put_identity_from_body_parent_from_config_witness :
    truthyStr cfgTC.threadId = some "t1" ∧
    (∀ rec, okSaver.config.putCheckpoint rec = .ok ()) ∧
    ∃ sc : StoredCheckpoint,
      (okSaver.put cfgTC { id := "c2", body := .num 3 } .null [] 9).2
        = [.putCheckpoint sc] ∧
      sc.checkpointId = "c2" ∧
      sc.parentCheckpointId = some "c1" ∧
      sc.threadId = "t1" ∧
      sc.nameSpace = okSaver.resolveNamespace cfgTC ∧
      sc.checkpoint = { id := "c2", body := .num 3 } ∧
      sc.metadata = .null ∧
      (okSaver.put cfgTC { id := "c2", body := .num 3 } .null [] 9).1
        = .ok { configurable := some {
            thread_id := some "t1",
            checkpoint_ns := some (okSaver.resolveNamespace cfgTC),
            checkpoint_id := some "c2",
            checkpoint_parent_id := none } } :=
  ⟨by decide, fun _ => rfl,
    put_identity_from_body_parent_from_config okSaver cfgTC
      { id := "c2", body := .num 3 } .null [] 9 "t1" (by decide) (fun _ => rfl)⟩

/-! ## C7 -/

/-- C7: with serialization enabled (`serialize` not set to `false`),
decoding the encoding of any JSON-serializable structured value is the
identity. -/
theorem serialize_roundtrip (s : CallbackSaver) (v : Value)
    (hser : s.config.serialize ≠ some false)
    (hclean : jsonCleanV v = true) :
    s.deserializeValue (s.serializeValue v) = v := by
  have hoff : s.serializeOff = false := by
    simp only [CallbackSaver.serializeOff, beq_iff_eq]
    simpa using hser
  obtain ⟨cs, hok⟩ := stringifyOkV v hclean
  simp [CallbackSaver.serializeValue, CallbackSaver.deserializeValue, hoff, hok,
    jsonParse_stringify v cs hclean hok]

/-- A nested structured value: `{"a": -12, "b": ["x", 3, true], "c": null}`. -/
def nestedFixture : Value :=
  .obj (.cons "a" (.num (-12))
    (.cons "b" (.arr (.cons (.str "x") (.cons (.num 3) (.cons (.bool true) .nil))))
      (.cons "c" .null .nil)))

/-- C7 witness: the round trip on a concrete nested value under the
default (serialize-on) saver. -/
theorem serialize_roundtrip_witness :
    okSaver.config.serialize ≠ some false ∧
    jsonCleanV nestedFixture = true ∧
    okSaver.deserializeValue (okSaver.serializeValue nestedFixture)
      = nestedFixture :=
  ⟨by decide, by decide,
    serialize_roundtrip okSaver nestedFixture (by decide) (by decide)⟩

/-! ## C8 -/

/-- C8: with serialization enabled, `serializeValue` is total and always
produces a string, even for values `JSON.stringify` cannot handle (it
falls back to the `String(value)` rendering); `deserializeValue` returns
every non-string value unchanged, and returns unparseable strings
unchanged. -/
theorem codec_tolerance :
    (∀ (s : CallbackSaver) (v : Value), s.config.serialize ≠ some false →
      ∃ out : String, s.serializeValue v = .str out) ∧
    (∀ (s : CallbackSaver) (v : Value), (∀ str, v ≠ .str str) →
      s.deserializeValue v = v) ∧
    (∀ (s : CallbackSaver) (str : String), jsonParse str = none →
      s.deserializeValue (.str str) = .str str) := by
  refine ⟨?_, ?_, ?_⟩
  · intro s v hser
    have hoff : s.serializeOff = false := by
      simp only [CallbackSaver.serializeOff, beq_iff_eq]
      simpa using hser
    cases hok : stringifyV v with
    | ok cs => exact ⟨String.mk cs, by simp [CallbackSaver.serializeValue, hoff, hok]⟩
    | undef => exact ⟨jsToString v, by simp [CallbackSaver.serializeValue, hoff, hok]⟩
    | thrown => exact ⟨jsToString v, by simp [CallbackSaver.serializeValue, hoff, hok]⟩
  · intro s v hnotstr
    by_cases hoff : s.serializeOff
    · simp [CallbackSaver.deserializeValue, hoff]
    · cases v with
      | str str => exact absurd rfl (hnotstr str)
      | num n => simp [CallbackSaver.deserializeValue, hoff]
      | bool b => simp [CallbackSaver.deserializeValue, hoff]
      | null => simp [CallbackSaver.deserializeValue, hoff]
      | undef => simp [CallbackSaver.deserializeValue, hoff]
      | func name => simp [CallbackSaver.deserializeValue, hoff]
      | sym d => simp [CallbackSaver.deserializeValue, hoff]
      | arr xs => simp [CallbackSaver.deserializeValue, hoff]
      | obj fs => simp [CallbackSaver.deserializeValue, hoff]
      | cyclic => simp [CallbackSaver.deserializeValue, hoff]
  · intro s str hparse
    by_cases hoff : s.serializeOff <;>
      simp [CallbackSaver.deserializeValue, hoff, hparse]

/-- C8 witness: a cyclic value serializes to some string without raising;
a non-string stored value and an unparseable string pass through
`deserializeValue` unchanged. -/
theorem codec_tolerance_witness :
    okSaver.config.serialize ≠ some false ∧
    (∀ str, Value.num 7 ≠ .str str) ∧
    jsonParse "not json" = none ∧
    (∃ out : String, okSaver.serializeValue .cyclic = .str out) ∧
    okSaver.deserializeValue (.num 7) = .num 7 ∧
    okSaver.deserializeValue (.str "not json") = .str "not json" :=
  ⟨by decide, fun str h => Value.noConfusion h, by decide,
    codec_tolerance.1 okSaver .cyclic (by decide),
    codec_tolerance.2.1 okSaver (.num 7) (fun str h => Value.noConfusion h),
    codec_tolerance.2.2 okSaver "not json" (by decide)⟩

/-! ## C5 -/

/-- The backend page sequence reachable from a request: the head page is
the response to `opts`; each later page is the response to the request
whose `before` is the previous page's (truthy) `nextCursor`; the last
page carries no truthy cursor. -/
def pageChain (s : CallbackSaver) :
    ListCheckpointsOptions → List ListCheckpointsResult → Prop
  | _, [] => False
  | opts, page :: rest =>
    s.config.listCheckpoints opts = .ok page ∧
    match truthyStr page.nextCursor with
    | none => rest = []
    | some cursor => pageChain s { opts with before := some cursor } rest

/-- The requests the loop issues along a page chain: the first is the
initial request; each following request is the previous one with
`before` set to the previous page's `nextCursor`. -/
def chainRequests (opts : ListCheckpointsOptions) :
    List ListCheckpointsResult → List ListCheckpointsOptions
  | [] => []
  | page :: rest =>
    opts :: (match truthyStr page.nextCursor with
      | none => []
      | some cursor => chainRequests { opts with before := some cursor } rest)

/-- The `listCheckpoints` requests recorded in a trace. -/
def listingCalls (t : List BackendCall) : List ListCheckpointsOptions :=
  t.filterMap (fun c => match c with
    | .listCheckpoints o => some o
    | _ => none)

/-- The `getWrites` calls issued for one page of checkpoints. -/
def pageWritesCalls (cps : List StoredCheckpoint) : List BackendCall :=
  cps.map (fun sc => .getWrites sc.threadId sc.nameSpace sc.checkpointId)

/-- The full backend trace of the loop along a page chain. -/
def chainTrace (opts : ListCheckpointsOptions) :
    List ListCheckpointsResult → List BackendCall
  | [] => []
  | page :: rest =>
    .listCheckpoints opts :: (pageWritesCalls page.checkpoints ++
      match truthyStr page.nextCursor with
      | none => []
      | some cursor => chainTrace { opts with before := some cursor } rest)

theorem processPage_ok (s : CallbackSaver) (wf : StoredCheckpoint → List StoredWrite)
    (hw : ∀ sc, s.config.getWrites sc.threadId sc.nameSpace sc.checkpointId
      = .ok (wf sc)) :
    ∀ cps : List StoredCheckpoint,
      s.processPage cps
        = (cps.map (fun sc => s.makeTuple sc (wf sc)), none, pageWritesCalls cps) := by
  intro cps
  induction cps with
  | nil => simp [CallbackSaver.processPage, pageWritesCalls]
  | cons sc tl ih => simp [CallbackSaver.processPage, hw, ih, pageWritesCalls]

theorem listingCalls_pageWrites (cps : List StoredCheckpoint) :
    listingCalls (pageWritesCalls cps) = [] := by
  induction cps with
  | nil => rfl
  | cons sc tl ih => simpa [listingCalls, pageWritesCalls] using ih

theorem listingCalls_append (a b : List BackendCall) :
    listingCalls (a ++ b) = listingCalls a ++ listingCalls b := by
  simp [listingCalls]

theorem listingCalls_cons_listing (o : ListCheckpointsOptions)
    (t : List BackendCall) :
    listingCalls (.listCheckpoints o :: t) = o :: listingCalls t := by
  simp [listingCalls]

theorem listingCalls_chainTrace :
    ∀ (pages : List ListCheckpointsResult) (opts : ListCheckpointsOptions),
      listingCalls (chainTrace opts pages) = chainRequests opts pages := by
  intro pages
  induction pages with
  | nil => intro opts; rfl
  | cons page rest ih =>
    intro opts
    cases hcur : truthyStr page.nextCursor with
    | none =>
      simp only [chainTrace, chainRequests, hcur, List.append_nil]
      rw [listingCalls_cons_listing, listingCalls_pageWrites]
    | some cursor =>
      simp only [chainTrace, chainRequests, hcur]
      rw [listingCalls_cons_listing, listingCalls_append,
        listingCalls_pageWrites, ih]
      simp

theorem chainRequests_length (s : CallbackSaver) :
    ∀ (pages : List ListCheckpointsResult) (opts : ListCheckpointsOptions),
      pageChain s opts pages → (chainRequests opts pages).length = pages.length := by
  intro pages
  induction pages with
  | nil => intro opts h; exact absurd h (by simp [pageChain])
  | cons page rest ih =>
    intro opts hchain
    obtain ⟨-, hnext⟩ := hchain
    cases hcur : truthyStr page.nextCursor with
    | none =>
      simp only [hcur] at hnext
      subst hnext
      simp [chainRequests, hcur]
    | some cursor =>
      simp only [hcur] at hnext
      simp [chainRequests, hcur, ih _ hnext]

theorem listLoop_chain (s : CallbackSaver) (wf : StoredCheckpoint → List StoredWrite)
    (hw : ∀ sc, s.config.getWrites sc.threadId sc.nameSpace sc.checkpointId
      = .ok (wf sc)) :
    ∀ (pages : List ListCheckpointsResult) (opts : ListCheckpointsOptions)
      (fuel : Nat),
      pageChain s opts pages → pages.length ≤ fuel →
      s.listLoop fuel opts
        = ⟨(pages.map (fun p =>
              p.checkpoints.map (fun sc => s.makeTuple sc (wf sc)))).join,
           none, chainTrace opts pages⟩ := by
  intro pages
  induction pages with
  | nil => intro opts fuel hchain _; exact absurd hchain (by simp [pageChain])
  | cons page rest ih =>
    intro opts fuel hchain hfuel
    obtain ⟨hreq, hnext⟩ := hchain
    cases fuel with
    | zero => simp at hfuel
    | succ f =>
      simp only [CallbackSaver.listLoop, hreq, processPage_ok s wf hw]
      cases hcur : truthyStr page.nextCursor with
      | none =>
        simp only [hcur] at hnext
        subst hnext
        simp [chainTrace, hcur]
      | some cursor =>
        simp only [hcur] at hnext
        have hlen : rest.length ≤ f := by simpa using hfuel
        simp [chainTrace, hcur, ih _ f hnext hlen]

/-- C5: along any sequence of backend pages linked by truthy
`nextCursor`s, `list` yields exactly the concatenation of the pages'
checkpoint tuples in backend order with no error; the listing requests it
makes are exactly the chain's requests (the first is the initial request,
each following one carries the previous page's `nextCursor` as `before`),
one request per page, ending with the first page whose cursor is
absent. -/
theorem list_pagination (s : CallbackSaver) (config : RunnableConfig)
    (options : Option CheckpointListOptions) (bef : Option RunnableConfig)
    (lim : Option Nat) (tid : String) (pages : List ListCheckpointsResult)
    (wf : StoredCheckpoint → List StoredWrite) (fuel : Nat)
    (htid : truthyStr config.threadId = some tid)
    (hchain : pageChain s (s.listOptionsOf config options bef lim tid) pages)
    (hw : ∀ sc, s.config.getWrites sc.threadId sc.nameSpace sc.checkpointId
      = .ok (wf sc))
    (hfuel : pages.length ≤ fuel) :
    (s.list fuel config options bef lim).tuples
      = (pages.map (fun p =>
          p.checkpoints.map (fun sc => s.makeTuple sc (wf sc)))).join ∧
    (s.list fuel config options bef lim).error = none ∧
    listingCalls (s.list fuel config options bef lim).calls
      = chainRequests (s.listOptionsOf config options bef lim tid) pages ∧
    (listingCalls (s.list fuel config options bef lim).calls).length
      = pages.length := by
  have hloop := listLoop_chain s wf hw pages
    (s.listOptionsOf config options bef lim tid) fuel hchain hfuel
  have hraw : s.listRaw fuel config options bef lim
      = s.listLoop fuel (s.listOptionsOf config options bef lim tid) := by
    simp [CallbackSaver.listRaw, htid]
  have hlist : s.list fuel config options bef lim
      = ⟨(pages.map (fun p =>
            p.checkpoints.map (fun sc => s.makeTuple sc (wf sc)))).join,
         none,
         chainTrace (s.listOptionsOf config options bef lim tid) pages⟩ := by
    simp [CallbackSaver.list, hraw, hloop]
  rw [hlist]
  refine ⟨rfl, rfl, ?_, ?_⟩
  · exact listingCalls_chainTrace pages _
  · rw [listingCalls_chainTrace pages _]
    exact chainRequests_length s pages _ hchain

/-- A stored checkpoint with id `"a"`. -/
def scA : StoredCheckpoint :=
  { threadId := "t1", nameSpace := "default", checkpointId := "a",
    parentCheckpointId := none, checkpoint := { id := "a", body := .null },
    metadata := .null, createdAt := 0, expiresAt := none }

/-- A stored checkpoint with id `"b"`. -/
def scB : StoredCheckpoint :=
  { threadId := "t1", nameSpace := "default", checkpointId := "b",
    parentCheckpointId := none, checkpoint := { id := "b", body := .null },
    metadata := .null, createdAt := 0, expiresAt := none }

/-- First page: checkpoint `"a"` with continuation cursor `"a"`. -/
def pageA : ListCheckpointsResult := ⟨[scA], some "a"⟩

/-- Second page: checkpoint `"b"`, no continuation cursor. -/
def pageB : ListCheckpointsResult := ⟨[scB], none⟩

/-- A backend serving `pageA` to a request without `before` and `pageB`
otherwise. -/
def twoPageBackend : CallbackSaverConfig :=
  { okBackend with
    listCheckpoints := fun opts =>
      match opts.before with
      | none => .ok pageA
      | some _ => .ok pageB }

/-- The saver over `twoPageBackend`. -/
def twoPageSaver : CallbackSaver := CallbackSaver.new twoPageBackend

/-- C5 witness: two checkpoints `"a"` then `"b"` across two pages are
yielded as exactly `["a", "b"]` using exactly two listing calls. -/
theorem list_pagination_witness :
    truthyStr cfgT.threadId = some "t1" ∧
    pageChain twoPageSaver
      (twoPageSaver.listOptionsOf cfgT none none none "t1") [pageA, pageB] ∧
    (∀ sc : StoredCheckpoint,
      twoPageSaver.config.getWrites sc.threadId sc.nameSpace sc.checkpointId
      = .ok []) ∧
    ((twoPageSaver.list 2 cfgT none none none).tuples
        = ([pageA, pageB].map (fun p =>
            p.checkpoints.map (fun sc => twoPageSaver.makeTuple sc []))).join ∧
      (twoPageSaver.list 2 cfgT none none none).error = none ∧
      listingCalls (twoPageSaver.list 2 cfgT none none none).calls
        = chainRequests
            (twoPageSaver.listOptionsOf cfgT none none none "t1") [pageA, pageB] ∧
      (listingCalls (twoPageSaver.list 2 cfgT none none none).calls).length = 2) ∧
    (twoPageSaver.list 2 cfgT none none none).tuples.map (fun t => t.checkpoint.id)
      = ["a", "b"] :=
  ⟨by decide, ⟨rfl, rfl, rfl⟩, fun _ => rfl,
    list_pagination twoPageSaver cfgT none none none "t1" [pageA, pageB]
      (fun _ => []) 2 (by decide) ⟨rfl, rfl, rfl⟩ (fun _ => rfl) (by decide),
    by decide⟩

/-! ## C9 -/

/-- C9 counterexample: a `before` cursor supplied inside the caller's
`options` object (`options.before`, a config whose `checkpoint_id` is
`"x"`) is ignored — the one listing request sent to the backend carries
`before: none`. -/
theorem list_ignores_options_before :
    (okSaver.list 1 cfgT
        (some { before := some { configurable := some { checkpoint_id := some "x" } } })
        none none).calls
      = [.listCheckpoints { threadId := "t1", nameSpace := "default",
                            limit := none, before := none,
                            filter := none }] := by
  decide

/-- C9 (amended): the first listing request carries the thread id, the
resolved namespace, the limit from `_limit || options?.limit`, and a
`before` cursor taken from the dedicated `_before` config argument's
`configurable.checkpoint_id` (when the caller supplies one); the `before`
field inside the `options` object is not consulted. -/
theorem list_first_request (s : CallbackSaver) (config : RunnableConfig)
    (options : Option CheckpointListOptions) (bef : Option RunnableConfig)
    (lim : Option Nat) (tid : String) (fuel : Nat)
    (htid : truthyStr config.threadId = some tid) :
    (s.list (fuel + 1) config options bef lim).calls.head?
      = some (.listCheckpoints (s.listOptionsOf config options bef lim tid)) ∧
    (s.listOptionsOf config options bef lim tid).before
      = (bef.bind (·.configurable)).bind (·.checkpoint_id) ∧
    (s.listOptionsOf config options bef lim tid).threadId = tid ∧
    (s.listOptionsOf config options bef lim tid).nameSpace
      = s.resolveNamespace config ∧
    (s.listOptionsOf config options bef lim tid).limit
      = (match truthyNat lim with
         | some n => some n
         | none => options.bind (·.limit)) := by
  refine ⟨?_, rfl, rfl, rfl, rfl⟩
  simp only [CallbackSaver.list, CallbackSaver.listRaw, htid]
  cases hres : s.config.listCheckpoints (s.listOptionsOf config options bef lim tid) with
  | error e => simp [CallbackSaver.listLoop, hres]
  | ok result =>
    rcases hpage : s.processPage result.checkpoints with ⟨ts, er, cs⟩
    cases er with
    | some e => simp [CallbackSaver.listLoop, hres, hpage]
    | none =>
      cases hcur : truthyStr result.nextCursor with
      | some cursor => simp [CallbackSaver.listLoop, hres, hpage, hcur]
      | none => simp [CallbackSaver.listLoop, hres, hpage, hcur]

/-- C9 witness for the amended statement: a concrete call whose `_before`
argument addresses checkpoint `"x"`. -/
theorem list_first_request_witness :
    truthyStr cfgT.threadId = some "t1" ∧
    ((okSaver.list 1 cfgT none
        (some { configurable := some { checkpoint_id := some "x" } }) none).calls.head?
      = some (.listCheckpoints (okSaver.listOptionsOf cfgT none
          (some { configurable := some { checkpoint_id := some "x" } }) none "t1")) ∧
    (okSaver.listOptionsOf cfgT none
        (some { configurable := some { checkpoint_id := some "x" } }) none "t1").before
      = some "x") :=
  ⟨by decide,
    (list_first_request okSaver cfgT none
      (some { configurable := some { checkpoint_id := some "x" } }) none "t1" 0
      (by decide)).1,
    by decide⟩

/-! ## C10 -/

/-- C10 (amended): when the backend returns a stored checkpoint, the
writes lookup and the returned tuple's config use the stored checkpoint's
own `threadId`, `namespace` and `checkpointId` — not the caller's values —
so the returned config always carries a concrete `checkpoint_id`; the
tuple's `parentConfig` is present iff `parentCheckpointId` is set to a
truthy (non-empty) string, in which case it addresses that parent id
under the stored `threadId` and `namespace`. -/
theorem getTuple_uses_stored_identity (s : CallbackSaver)
    (config : RunnableConfig) (tid : String) (sc : StoredCheckpoint)
    (ws : List StoredWrite)
    (htid : truthyStr config.threadId = some tid)
    (hget : s.config.getCheckpoint tid (s.resolveNamespace config)
      config.checkpointId = .ok (some sc))
    (hw : s.config.getWrites sc.threadId sc.nameSpace sc.checkpointId = .ok ws) :
    s.getTuple config
      = (.ok (some (s.makeTuple sc ws)),
         [.getCheckpoint tid (s.resolveNamespace config) config.checkpointId,
          .getWrites sc.threadId sc.nameSpace sc.checkpointId]) ∧
    (s.makeTuple sc ws).config
      = { configurable := some {
          thread_id := some sc.threadId,
          checkpoint_ns := some sc.nameSpace,
          checkpoint_id := some sc.checkpointId,
          checkpoint_parent_id := truthyStr sc.parentCheckpointId } } ∧
    ((s.makeTuple sc ws).parentConfig ≠ none
      ↔ truthyStr sc.parentCheckpointId ≠ none) ∧
    (∀ p, truthyStr sc.parentCheckpointId = some p →
      (s.makeTuple sc ws).parentConfig
        = some { configurable := some {
            thread_id := some sc.threadId,
            checkpoint_ns := some sc.nameSpace,
            checkpoint_id := some p,
            checkpoint_parent_id := none } }) := by
  refine ⟨?_, rfl, ?_, ?_⟩
  · simp [CallbackSaver.getTuple, CallbackSaver.getTupleRaw, htid, hget, hw,
      wrapResult]
  · cases h : truthyStr sc.parentCheckpointId <;> simp [CallbackSaver.makeTuple, h]
  · intro p hp
    simp [CallbackSaver.makeTuple, hp]

/-- A stored checkpoint whose identity differs from the caller's context
and whose parent is set. -/
def scOther : StoredCheckpoint :=
  { threadId := "other", nameSpace := "ns2", checkpointId := "c9",
    parentCheckpointId := some "p1",
    checkpoint := { id := "c9", body := .null },
    metadata := .null, createdAt := 0, expiresAt := none }

/-- A backend always finding `scOther`. -/
def otherBackend : CallbackSaverConfig :=
  { okBackend with getCheckpoint := fun _ _ _ => .ok (some scOther) }

/-- The saver over `otherBackend`. -/
def otherSaver : CallbackSaver := CallbackSaver.new otherBackend

/-- C10 witness: the follow-up `getWrites` call and the returned config
use the stored checkpoint's `"other"/"ns2"/"c9"`, not the caller's
`"t1"/"default"`, and the parent config addresses `"p1"`. -/
theorem getTuple_uses_stored_identity_witness :
    truthyStr cfgT.threadId = some "t1" ∧
    otherSaver.config.getCheckpoint "t1" (otherSaver.resolveNamespace cfgT)
      cfgT.checkpointId = .ok (some scOther) ∧
    otherSaver.config.getWrites scOther.threadId scOther.nameSpace
      scOther.checkpointId = .ok [] ∧
    (otherSaver.getTuple cfgT
      = (.ok (some (otherSaver.makeTuple scOther [])),
         [.getCheckpoint "t1" (otherSaver.resolveNamespace cfgT) cfgT.checkpointId,
          .getWrites "other" "ns2" "c9"]) ∧
      (otherSaver.makeTuple scOther []).config
        = { configurable := some {
            thread_id := some "other",
            checkpoint_ns := some "ns2",
            checkpoint_id := some "c9",
            checkpoint_parent_id := truthyStr scOther.parentCheckpointId } } ∧
      ((otherSaver.makeTuple scOther []).parentConfig ≠ none
        ↔ truthyStr scOther.parentCheckpointId ≠ none) ∧
      (∀ p, truthyStr scOther.parentCheckpointId = some p →
        (otherSaver.makeTuple scOther []).parentConfig
          = some { configurable := some {
              thread_id := some "other",
              checkpoint_ns := some "ns2",
              checkpoint_id := some p,
              checkpoint_parent_id := none } })) :=
  ⟨by decide, rfl, rfl,
    getTuple_uses_stored_identity otherSaver cfgT "t1" scOther []
      (by decide) rfl rfl⟩

/-- A stored checkpoint whose `parentCheckpointId` is set to the empty
string. -/
def scEmptyParent : StoredCheckpoint :=
  { scFixture with parentCheckpointId := some "" }

/-- A backend always finding `scEmptyParent`. -/
def emptyParentBackend : CallbackSaverConfig :=
  { okBackend with getCheckpoint := fun _ _ _ => .ok (some scEmptyParent) }

/-- The saver over `emptyParentBackend`. -/
def emptyParentSaver : CallbackSaver := CallbackSaver.new emptyParentBackend

/-- C10 counterexample: a stored checkpoint whose `parentCheckpointId` is
set (to the empty string) yields a tuple with NO `parentConfig` — the
code tests JavaScript truthiness, not presence. -/
theorem getTuple_empty_parent_no_parentConfig :
    scEmptyParent.parentCheckpointId.isSome = true ∧
    (emptyParentSaver.getTuple cfgT).1
      = .ok (some (emptyParentSaver.makeTuple scEmptyParent [])) ∧
    (emptyParentSaver.makeTuple scEmptyParent []).parentConfig = none := by
  refine ⟨by decide, by decide, by decide⟩

end CallbackCheckpointer
